import Mathlib

set_option maxRecDepth 20000
set_option maxHeartbeats 1000000

/-!
Verification of the precision-aware temporal model and string-templating
utilities of `meteor-app/imports/helpers/model.js`.

The JavaScript module is embedded shallowly:

* A JavaScript `Date` is modelled by `DateObj`, a record of the seven UTC
  calendar fields.  A real `Date` stores a millisecond count and derives the
  fields from it; since the field tuple of a valid date determines the
  millisecond count and vice versa, a record of normalized fields is an
  equivalent representation.  The ECMAScript field setters
  (`setUTCFullYear`, `setUTCMonth`, ...) are modelled by total functions that
  perform the same proleptic-Gregorian normalization (`MakeDay`/`MakeTime`
  followed by re-deriving the fields) that the millisecond representation
  performs implicitly.
* JavaScript strings are modelled as `List Char`.
* JavaScript runtime values (needed by `getNumber` and the template filler)
  are modelled by `JSValue`; JavaScript numbers by `JSNumber`, which keeps
  the distinctions the code under verification observes (finite value, NaN,
  infinities).  The integer-valued arithmetic of the module is exact within
  the double-precision range the specification restricts itself to, so
  finite numbers carry an `Int`.
* The impure read of the clock in `parseDateStringWithPrecision`
  (`new Date()`) becomes an explicit `now : DateObj` parameter.
* The mutable `dataStore` object of the template filler becomes explicit
  state passing: the filler returns the updated store.
-/

/-! ## Proleptic Gregorian calendar arithmetic

ECMAScript `Date` semantics (`MakeDay`, day/month/year extraction) over an
absolute day number.  Day numbers here are counted from 0000-01-01 (the
ECMAScript epoch day 1970-01-01 is absolute day 719528; the shift cancels
in every field setter and only reappears in `dateValueOf`).
-/

/-- Gregorian leap-year predicate on an arbitrary integer year (ECMAScript
`DaysInYear`). -/
def isLeap (y : Int) : Bool :=
  (y % 4 == 0 && y % 100 != 0) || y % 400 == 0

/-- Leap-year predicate on a year-of-era (natural number). -/
def isLeapN (y : Nat) : Bool :=
  (y % 4 == 0 && y % 100 != 0) || y % 400 == 0

/-- Days in month `m` (0-based) of a (non-)leap year. -/
def dimN (leap : Bool) : Nat → Nat
  | 0 => 31
  | 1 => if leap then 29 else 28
  | 2 => 31
  | 3 => 30
  | 4 => 31
  | 5 => 30
  | 6 => 31
  | 7 => 31
  | 8 => 30
  | 9 => 31
  | 10 => 30
  | _ => 31

/-- Days before month `m` (0-based) in a (non-)leap year. -/
def dbmN (leap : Bool) : Nat → Nat
  | 0 => 0
  | m + 1 => dbmN leap m + dimN leap m

/-- Length of year `y` in days. -/
def yearLenN (y : Nat) : Nat := if isLeapN y then 366 else 365

/-- Days before year `y` counted from year 0 (for years of one era). -/
def dbyN : Nat → Nat
  | 0 => 0
  | y + 1 => dbyN y + yearLenN y

/-- Days before year `y` counted from year 0, for an arbitrary integer
year (closed form). -/
def dby (y : Int) : Int :=
  365 * y + (y + 3) / 4 - (y + 99) / 100 + (y + 399) / 400

/-- Absolute day number (days since 0000-01-01) of year `y`, 0-based month
`m` (expected in `[0, 12)`), day-of-month `d`.  `d` is unconstrained and
contributes linearly, exactly as in ECMAScript `MakeDay`. -/
def adDay (y m d : Int) : Int :=
  dby y + (dbmN (isLeap y) m.toNat : Int) + d - 1

/-- ECMAScript `MakeDay`: folds an arbitrary integer month into the year,
then forms the absolute day number. -/
def makeDayJS (y m d : Int) : Int :=
  adDay (y + m / 12) (m % 12) d

/-- Linear search for the year-of-era containing a given day-of-era:
starting at year `yoe` with `rem` days left, steps one year at a time. -/
def findYearAux : Nat → Nat → Nat → Nat × Nat
  | 0, yoe, rem => (yoe, rem)
  | fuel + 1, yoe, rem =>
    if rem < yearLenN yoe then (yoe, rem)
    else findYearAux fuel (yoe + 1) (rem - yearLenN yoe)

/-- Linear search for the month containing a given day-of-year. -/
def findMonthAux (leap : Bool) : Nat → Nat → Nat → Nat × Nat
  | 0, m, rem => (m, rem)
  | fuel + 1, m, rem =>
    if rem < dimN leap m then (m, rem)
    else findMonthAux leap fuel (m + 1) (rem - dimN leap m)

/-- Convert an absolute day number back to the civil date `(year, month,
day)` with month 0-based and day 1-based: ECMAScript `YearFromTime`,
`MonthFromTime`, `DateFromTime` over our absolute day origin. -/
def civilFromAdDay (z : Int) : Int × Int × Int :=
  let q := z / 146097
  let doe := (z % 146097).toNat
  let yk := findYearAux 400 0 doe
  let md := findMonthAux (isLeapN yk.1) 12 0 yk.2
  (400 * q + (yk.1 : Int), (md.1 : Int), (md.2 : Int) + 1)

/-! ## The `Date` model -/

/-- A JavaScript `Date` (a UTC instant), represented by its seven UTC
calendar fields.  A reachable `Date` always carries normalized fields
(characterized by `WF` below); the fields of a valid date and its
millisecond timestamp determine each other. -/
@[ext]
structure DateObj where
  year : Int
  month : Int
  day : Int
  hour : Int
  minute : Int
  second : Int
  millisecond : Int
deriving DecidableEq, Repr

/-- Field normalization invariant of a reachable `Date`: month is 0-based in
`[0, 12)`, the day of month is valid for the year/month, and the time
fields are within their ranges. -/
def WF (d : DateObj) : Prop :=
  0 ≤ d.month ∧ d.month < 12 ∧
  1 ≤ d.day ∧ d.day ≤ (dimN (isLeap d.year) d.month.toNat : Int) ∧
  0 ≤ d.hour ∧ d.hour < 24 ∧
  0 ≤ d.minute ∧ d.minute < 60 ∧
  0 ≤ d.second ∧ d.second < 60 ∧
  0 ≤ d.millisecond ∧ d.millisecond < 1000

instance (d : DateObj) : Decidable (WF d) := by
  unfold WF
  infer_instance

/-- Replace the date part (year, month, day) of `d` with the civil triple
`c`. -/
def withCivil (d : DateObj) (c : Int × Int × Int) : DateObj :=
  { d with year := c.1, month := c.2.1, day := c.2.2 }

/-- ECMAScript `Date.prototype.setUTCFullYear` (year argument only):
rebuilds the date from `MakeDay(v, month, day)`, keeping the time of day. -/
def setUTCFullYear (d : DateObj) (v : Int) : DateObj :=
  withCivil d (civilFromAdDay (makeDayJS v d.month d.day))

/-- ECMAScript `Date.prototype.setUTCMonth` (month argument only). -/
def setUTCMonth (d : DateObj) (v : Int) : DateObj :=
  withCivil d (civilFromAdDay (makeDayJS d.year v d.day))

/-- ECMAScript `Date.prototype.setUTCDate`. -/
def setUTCDate (d : DateObj) (v : Int) : DateObj :=
  withCivil d (civilFromAdDay (makeDayJS d.year d.month v))

/-- Rebuild a date from the current day number plus a new
milliseconds-within-day total `t` (possibly out of `[0, 86400000)`; the
excess carries into the day number): ECMAScript
`MakeDate(Day(t), MakeTime(...))` followed by re-deriving all fields. -/
def setTimeOfDayMs (d : DateObj) (t : Int) : DateObj :=
  { withCivil d (civilFromAdDay (adDay d.year d.month d.day + t / 86400000)) with
    hour := (t % 86400000) / 3600000,
    minute := ((t % 86400000) % 3600000) / 60000,
    second := ((t % 86400000) % 60000) / 1000,
    millisecond := (t % 86400000) % 1000 }

/-- ECMAScript `Date.prototype.setUTCHours` (hours argument only). -/
def setUTCHours (d : DateObj) (v : Int) : DateObj :=
  setTimeOfDayMs d
    (v * 3600000 + d.minute * 60000 + d.second * 1000 + d.millisecond)

/-- ECMAScript `Date.prototype.setUTCMinutes` (minutes argument only). -/
def setUTCMinutes (d : DateObj) (v : Int) : DateObj :=
  setTimeOfDayMs d
    (d.hour * 3600000 + v * 60000 + d.second * 1000 + d.millisecond)

/-- ECMAScript `Date.prototype.setUTCSeconds` (seconds argument only). -/
def setUTCSeconds (d : DateObj) (v : Int) : DateObj :=
  setTimeOfDayMs d
    (d.hour * 3600000 + d.minute * 60000 + v * 1000 + d.millisecond)

/-- ECMAScript `Date.prototype.setUTCMilliseconds`. -/
def setUTCMilliseconds (d : DateObj) (v : Int) : DateObj :=
  setTimeOfDayMs d
    (d.hour * 3600000 + d.minute * 60000 + d.second * 1000 + v)

/-- ECMAScript UTC field getters. -/
def getUTCFullYear (d : DateObj) : Int := d.year

/-- Month getter (0-based month, as in JavaScript). -/
def getUTCMonth (d : DateObj) : Int := d.month

/-- Day-of-month getter. -/
def getUTCDate (d : DateObj) : Int := d.day

/-- Hours getter. -/
def getUTCHours (d : DateObj) : Int := d.hour

/-- Minutes getter. -/
def getUTCMinutes (d : DateObj) : Int := d.minute

/-- Seconds getter. -/
def getUTCSeconds (d : DateObj) : Int := d.second

/-- Milliseconds getter. -/
def getUTCMilliseconds (d : DateObj) : Int := d.millisecond

/-- Millisecond timestamp of a date (ECMAScript `Date.prototype.valueOf`):
days since the 1970-01-01 epoch times 86400000 plus the time of day. -/
def dateValueOf (d : DateObj) : Int :=
  (adDay d.year d.month d.day - 719528) * 86400000 +
    d.hour * 3600000 + d.minute * 60000 + d.second * 1000 + d.millisecond

/-! ## JavaScript runtime values -/

/-- A JavaScript number as observed by this module: an exact integer (the
module only produces integer-valued numbers on the paths under
verification), NaN, or an infinity. -/
inductive JSNumber where
  | finite (v : Int)
  | nan
  | posInf
  | negInf
deriving DecidableEq, Repr

/-- A JavaScript runtime value, covering the type tags the module
dispatches on. -/
inductive JSValue where
  | num (n : JSNumber)
  | str (s : List Char)
  | boolv (b : Bool)
  | nullv
  | undef
  | objv (fields : List (List Char × JSValue))
  | funcv (f : Unit → JSValue)

/-- JavaScript global `isNaN` restricted to numbers (the only values the
source applies it to, behind a `typeof value === 'number'` guard). -/
def jsIsNaNNum (n : JSNumber) : Bool := n == JSNumber.nan

/-- JavaScript truthiness. -/
def isTruthy : JSValue → Bool
  | .num (.finite v) => v != 0
  | .num .nan => false
  | .num _ => true
  | .str s => !s.isEmpty
  | .boolv b => b
  | .nullv => false
  | .undef => false
  | .objv _ => true
  | .funcv _ => true

/-- model.js `getNumber`: `typeof value === 'number' && !isNaN(value)`
selects the value, otherwise the default is returned. -/
def getNumber (value defaultValue : JSValue) : JSValue :=
  match value with
  | .num n => if jsIsNaNNum n then defaultValue else value
  | _ => defaultValue

/-! ## Strings and numerals -/

/-- Decimal digits with explicit fuel (any fuel above the digit count of
`n` yields the digits of `n`, most significant first). -/
def natToDigitsAux : Nat → Nat → List Char
  | 0, _ => []
  | fuel + 1, n =>
    if n < 10 then [Nat.digitChar n]
    else natToDigitsAux fuel (n / 10) ++ [Nat.digitChar (n % 10)]

/-- Decimal digits of a natural number, most significant first (JavaScript
`String()` on a non-negative integer-valued number). -/
def natToDigits (n : Nat) : List Char := natToDigitsAux (n + 1) n

/-- JavaScript `String()` on an integer-valued number. -/
def intToString (n : Int) : List Char :=
  if n < 0 then '-' :: natToDigits (-n).toNat else natToDigits n.toNat

/-- `String.prototype.padStart` with a one-character pad. -/
def padStart (s : List Char) (targetLength : Nat) (c : Char) : List Char :=
  List.replicate (targetLength - s.length) c ++ s

/-- Value of a list of decimal digit characters. -/
def parseDigits (ds : List Char) : Nat :=
  ds.foldl (fun a c => 10 * a + (c.toNat - 48)) 0

/-- Decimal digit character class (code points 48-57). -/
def isDigitJS (c : Char) : Bool := 48 ≤ c.toNat && c.toNat ≤ 57

/-- JavaScript `StrWhiteSpace` as far as this module can observe it: space,
tab, line feed, vertical tab, form feed, carriage return. -/
def isWhitespaceJS (c : Char) : Bool :=
  c.toNat = 32 || c.toNat = 9 || c.toNat = 10 || c.toNat = 11 || c.toNat = 12 || c.toNat = 13

/-- JavaScript `parseInt(s, 10)`: skip leading whitespace, read an optional
sign and then the longest digit prefix; NaN when no digit follows. -/
def parseIntJS (s : List Char) : JSNumber :=
  let s1 := s.dropWhile isWhitespaceJS
  match s1 with
  | [] => JSNumber.nan
  | c :: rest =>
    if c = '-' then
      match rest.takeWhile isDigitJS with
      | [] => JSNumber.nan
      | ds => JSNumber.finite (-(parseDigits ds : Int))
    else if c = '+' then
      match rest.takeWhile isDigitJS with
      | [] => JSNumber.nan
      | ds => JSNumber.finite (parseDigits ds)
    else
      match s1.takeWhile isDigitJS with
      | [] => JSNumber.nan
      | ds => JSNumber.finite (parseDigits ds)

/-- `String.prototype.split` with a one-character separator. -/
def splitOnChar (delim : Char) : List Char → List (List Char)
  | [] => [[]]
  | c :: cs =>
    match splitOnChar delim cs with
    | [] => [[]]
    | h :: t => if c = delim then [] :: h :: t else (c :: h) :: t

/-- `Array.prototype.join` with a one-character separator. -/
def joinWith (delim : Char) : List (List Char) → List Char
  | [] => []
  | [x] => x
  | x :: y :: xs => x ++ delim :: joinWith delim (y :: xs)

/-- `Array.prototype.slice(0, e)`: a negative end index counts from the end
of the array. -/
def jsSliceTo {α : Type} (l : List α) (e : Int) : List α :=
  l.take (if e < 0 then ((l.length : Int) + e).toNat else e.toNat)

/-! ## model.js: precision-aware temporal model -/

/-- The handler/zero-point table of `getDateAtPrecision`, in source order
(coarsest to finest). -/
def truncHandlers : List ((DateObj → Int → DateObj) × Int) :=
  [(setUTCFullYear, 0), (setUTCMonth, 0), (setUTCDate, 1), (setUTCHours, 0),
   (setUTCMinutes, 0), (setUTCSeconds, 0), (setUTCMilliseconds, 0)]

/-- model.js `getDateAtPrecision`: the reduce over the handler table;
iterations with index at most `precision` keep the accumulator, the
others apply the handler with its zero point to a fresh copy. -/
def getDateAtPrecision (date : DateObj) (precision : Int) : DateObj :=
  truncHandlers.enum.foldl
    (fun acc x => if (x.1 : Int) ≤ precision then acc else x.2.1 acc x.2.2)
    date

/-- Mirrors the object-allocation structure of the same reduce: the
accumulator becomes a fresh `new Date(acc)` copy exactly in the iterations
whose index exceeds `precision`, so the result is a new object iff at
least one iteration ran; otherwise the input object itself is returned. -/
def getDateAtPrecisionMakesCopy (precision : Int) : Bool :=
  truncHandlers.enum.foldl
    (fun fresh x => if (x.1 : Int) ≤ precision then fresh else true)
    false

/-- The setter/getter table of `offsetDateAtPrecision`, in source order. -/
def offsetHandlers : List ((DateObj → Int → DateObj) × (DateObj → Int)) :=
  [(setUTCFullYear, getUTCFullYear), (setUTCMonth, getUTCMonth),
   (setUTCDate, getUTCDate), (setUTCHours, getUTCHours),
   (setUTCMinutes, getUTCMinutes), (setUTCSeconds, getUTCSeconds),
   (setUTCMilliseconds, getUTCMilliseconds)]

/-- model.js `offsetDateAtPrecision`.  JavaScript destructures
`precisions[precision]`; an out-of-range precision destructures `undefined`
and throws, which is unreachable on the documented domain `0..6` and
modelled as returning the input unchanged. -/
def offsetDateAtPrecision (date : DateObj) (precision : Int) (offset : Int) : DateObj :=
  if precision < 0 then date
  else
    match offsetHandlers[precision.toNat]? with
    | none => date
    | some x => x.1 date (x.2 date + offset)

/-- model.js `ResolutionToPrecisionMapping`, field for field (`day` is the
commented alias of `date`; `millisecond: 5` is as written in the source). -/
def ResolutionToPrecisionMapping : List (String × Int) :=
  [("year", 0), ("month", 1), ("date", 2), ("day", 2),
   ("hour", 3), ("minute", 4), ("second", 5), ("millisecond", 5)]

/-- model.js `AllResolutionNames` (`Object.keys` of the mapping). -/
def AllResolutionNames : List String :=
  ResolutionToPrecisionMapping.map Prod.fst

/-- model.js `getPrecisionByResolution`: property lookup on the mapping
object; an unknown name yields `undefined`, modelled as `none`. -/
def getPrecisionByResolution (resolution : String) : Option Int :=
  ResolutionToPrecisionMapping.lookup resolution

/-- model.js `getDateStringAtPrecision` (the `options` object is modelled
by its only member, the delimiter, which defaults to `'-'` at every call
site in the module). -/
def getDateStringAtPrecision (date : DateObj) (precision : Int) (delimiter : Char) :
    List Char :=
  let year := getUTCFullYear date
  let yearString :=
    if year < 0 then '-' :: padStart (intToString (-year)) 6 '0'
    else padStart (intToString year) 4 '0'
  let dateStringSegments :=
    [yearString,
     padStart (intToString (getUTCMonth date + 1)) 2 '0',
     padStart (intToString (getUTCDate date)) 2 '0']
  joinWith delimiter (jsSliceTo dateStringSegments (precision + 1))

/-- model.js `parseDateStringWithPrecision`.  The impure `new Date()` is
the explicit `now` parameter; the thrown `Error` is the `Except.error`
branch carrying the message the source builds. -/
def parseDateStringWithPrecision (now : DateObj) (dateString : List Char)
    (precision : Int) (delimiter : Char) : Except (List Char) DateObj :=
  let isBcYear := dateString.head? == some '-'
  let absYearStr := if isBcYear then dateString.tail else dateString
  let dateStringSegments := splitOnChar delimiter absYearStr
  let dateValueSegments := dateStringSegments.map parseIntJS
  let seg : Nat → JSValue := fun i =>
    match dateValueSegments[i]? with
    | some n => JSValue.num n
    | none => JSValue.undef
  match getNumber (seg 0) JSValue.undef with
  | .num (.finite absYear) =>
    let date := getDateAtPrecision now (-1)
    let year := if isBcYear then -absYear else absYear
    -- the fallthrough arms below are unreachable: `parseIntJS` yields a
    -- finite number or NaN, and `getNumber` maps NaN and `undefined`
    -- to the finite default 1
    let month : Int :=
      match getNumber (seg 1) (JSValue.num (JSNumber.finite 1)) with
      | .num (.finite v) => v
      | _ => 1
    let day : Int :=
      match getNumber (seg 2) (JSValue.num (JSNumber.finite 1)) with
      | .num (.finite v) => v
      | _ => 1
    let date := setUTCFullYear date year
    let date := setUTCMonth date (month - 1)
    let date := setUTCDate date day
    Except.ok (getDateAtPrecision date precision)
  | _ =>
    Except.error
      (('"' :: dateString) ++ ('"' :: " is not a valid date string: year info missing.".data))

/-- model.js `clampDateWithinRange`: two sequential reassignments of
`finalDate`, comparing `valueOf` timestamps. -/
def clampDateWithinRange (date minDate maxDate : DateObj) : DateObj :=
  let finalDate := date
  let finalDate := if dateValueOf finalDate > dateValueOf maxDate then maxDate else finalDate
  let finalDate := if dateValueOf finalDate < dateValueOf minDate then minDate else finalDate
  finalDate

/-- Hexadecimal digit (uppercase, as `encodeURIComponent` emits). -/
def hexDigit (n : Nat) : Char :=
  if n < 10 then Char.ofNat (48 + n) else Char.ofNat (55 + n)

/-- Characters `encodeURIComponent` leaves unescaped. -/
def isUnreservedURI (c : Char) : Bool :=
  c.isAlpha || c.isDigit || c == '-' || c == '_' || c == '.' || c == '!' ||
  c == '~' || c == '*' || c == Char.ofNat 39 || c == '(' || c == ')'

/-- JavaScript `encodeURIComponent`: percent-encode the UTF-8 bytes of
every reserved character. -/
def encodeURIComponent (s : List Char) : List Char :=
  s.foldr
    (fun c acc =>
      (if isUnreservedURI c then [c]
       else (String.utf8EncodeChar c).foldr
         (fun b a => '%' :: hexDigit (b.toNat / 16) :: hexDigit (b.toNat % 16) :: a) [])
      ++ acc)
    []

/-- JavaScript `String()` on a number value. -/
def jsNumToString (n : JSNumber) : List Char :=
  match n with
  | .finite v => intToString v
  | .nan => "NaN".data
  | .posInf => "Infinity".data
  | .negInf => "-Infinity".data

/-- JavaScript `String()` conversion by type tag.  A function converts to
its source text, which the model does not carry; no claim observes that
value. -/
def jsToString : JSValue → List Char
  | .num n => jsNumToString n
  | .str s => s
  | .boolv b => if b then "true".data else "false".data
  | .nullv => "null".data
  | .undef => "undefined".data
  | .objv _ => "[object Object]".data
  | .funcv _ => "function".data

/-! ## model.js: template filler -/

/-- The opening brace of a placeholder token. -/
def lbrace : Char := Char.ofNat 123

/-- The closing brace of a placeholder token. -/
def rbrace : Char := Char.ofNat 125

/-- First character class of the placeholder identifier in
`placeholderPattern` (case-insensitive `[a-z-_]`). -/
def isIdStart (c : Char) : Bool := c.isAlpha || c == '-' || c == '_'

/-- Continuation character class (case-insensitive `[a-z0-9-_]`). -/
def isIdCont (c : Char) : Bool := c.isAlpha || c.isDigit || c == '-' || c == '_'

/-- Attempt to read `identifier` followed by the closing brace, directly
after an opening brace.  Returns the identifier and the text after the
match.  The greedy star of the regular expression needs no backtracking:
the closing brace is not an identifier character. -/
def tryPlaceholderBody (cs : List Char) : Option (List Char × List Char) :=
  match cs with
  | [] => none
  | c :: rest =>
    if isIdStart c then
      match rest.dropWhile isIdCont with
      | d :: tail =>
        if d = rbrace then some (c :: rest.takeWhile isIdCont, tail) else none
      | [] => none
    else none

/-- Leftmost match of `placeholderPattern` in `s`: the matched substring,
the captured identifier, and the text after the match. -/
def findPlaceholder : List Char → Option (List Char × List Char × List Char)
  | [] => none
  | c :: cs =>
    if c = lbrace then
      match tryPlaceholderBody cs with
      | some nr => some (lbrace :: nr.1 ++ [rbrace], nr.1, nr.2)
      | none => findPlaceholder cs
    else findPlaceholder cs

/-- `matchedString.match(placeholderPattern)`: the matched substring and
the capture group. -/
def matchPlaceholder (s : List Char) : Option (List Char × List Char) :=
  match findPlaceholder s with
  | some m => some (m.1, m.2.1)
  | none => none

/-- All matches of `placeholderGlobalFindPattern` (non-overlapping, left to
right), as `templateString.match(global)` collects them. -/
def findAllPlaceholdersAux : Nat → List Char → List (List Char)
  | 0, _ => []
  | fuel + 1, s =>
    match findPlaceholder s with
    | none => []
    | some m => m.1 :: findAllPlaceholdersAux fuel m.2.2

/-- Every placeholder match in `s`; a match is at least three characters
long and the scan resumes after it, so `s.length` steps of fuel suffice. -/
def findAllPlaceholders (s : List Char) : List (List Char) :=
  findAllPlaceholdersAux s.length s

/-- `String.prototype.replace` with a plain string pattern: replace the
first occurrence.  (JavaScript would additionally interpret dollar
patterns in the replacement; no replacement string produced by this module
is claimed to contain one.) -/
def replaceFirst : List Char → List Char → List Char → List Char
  | [], target, repl => if target.isEmpty then repl else []
  | c :: cs, target, repl =>
    if target.isPrefixOf (c :: cs) then repl ++ (c :: cs).drop target.length
    else c :: replaceFirst cs target repl

/-- The caller-owned mutable `dataStore` object, modelled as an
association list threaded through the filler. -/
abbrev DataStore := List (List Char × JSValue)

/-- Property write `dataStore[fillerName] = value` (overwrite or append). -/
def storeSet (store : DataStore) (key : List Char) (v : JSValue) : DataStore :=
  match store with
  | [] => [(key, v)]
  | (k, w) :: rest => if k = key then (k, v) :: rest else (k, w) :: storeSet rest key v

/-- Property read on the store. -/
def storeGet (store : DataStore) (key : List Char) : Option JSValue :=
  match store with
  | [] => none
  | (k, w) :: rest => if k = key then some w else storeGet rest key

/-- Resolve a filler entry: a callable filler is invoked with no
arguments, any other entry is its own literal value
(`typeof filler === 'function' ? filler() : filler`). -/
def resolveFiller (filler : JSValue) : JSValue :=
  match filler with
  | .funcv f => f ()
  | v => v

/-- A placeholder identifier: `[a-z-_][a-z0-9-_]*`, case-insensitively. -/
def validIdent (name : List Char) : Bool :=
  match name with
  | [] => false
  | c :: cs => isIdStart c && cs.all isIdCont

/-- model.js `fillTemplateStringSegment`.  The filler dictionary is a total
function to `JSValue` (a missing property reads as `undefined`); the
mutable `dataStore` is threaded explicitly, `none` standing for an absent
store.  The branch chain is the source's: falsy filler entries behave as
missing; a callable filler is invoked; `null`/`undefined` values and (with
a store present) non-string values render as the empty string; string
values render percent-encoded; non-string values go to the store when one
is present and are otherwise `String()`-converted. -/
def fillTemplateStringSegment (templateString matchedString : List Char)
    (fillers : List Char → JSValue) (dataStore : Option DataStore) :
    List Char × Option DataStore :=
  match matchPlaceholder matchedString with
  | none => (templateString, dataStore)
  | some m =>
    let fillerName := m.2
    let filler := fillers fillerName
    if !(isTruthy filler) then (replaceFirst templateString matchedString [], dataStore)
    else
      let replacementValue := resolveFiller filler
      match replacementValue with
      | .nullv => (replaceFirst templateString matchedString [], dataStore)
      | .undef => (replaceFirst templateString matchedString [], dataStore)
      | .str sv => (replaceFirst templateString matchedString (encodeURIComponent sv), dataStore)
      | v =>
        match dataStore with
        | some store =>
          (replaceFirst templateString matchedString [], some (storeSet store fillerName v))
        | none => (replaceFirst templateString matchedString (jsToString v), dataStore)

/-- model.js `fillTemplateString`: collect every placeholder match of the
original template, then reduce `fillTemplateStringSegment` over them. -/
def fillTemplateString (templateString : List Char) (fillers : List Char → JSValue)
    (dataStore : Option DataStore) : List Char × Option DataStore :=
  if templateString.isEmpty then (templateString, dataStore)
  else
    match findAllPlaceholders templateString with
    | [] => (templateString, dataStore)
    | ms =>
      ms.foldl (fun acc m => fillTemplateStringSegment acc.1 m fillers acc.2)
        (templateString, dataStore)

/-- The seven temporal fields of a date, indexed by precision ordinal
(0 year, 1 month, 2 day, 3 hour, 4 minute, 5 second, 6 millisecond). -/
def fieldAt (d : DateObj) : Nat → Int
  | 0 => d.year
  | 1 => d.month
  | 2 => d.day
  | 3 => d.hour
  | 4 => d.minute
  | 5 => d.second
  | _ => d.millisecond

/-- The zero point of each field (month resets to 0, day to 1, the time
fields to 0; the year index 0 is never reset and its entry is unused). -/
def zeroPointAt : Nat → Int
  | 2 => 1
  | _ => 0

/-- Classification used to state `getNumber`'s behavior: a value of number
type other than NaN (finite values and the infinities). -/
def isNonNaNNumber (v : JSValue) : Bool :=
  match v with
  | .num n => !(jsIsNaNNum n)
  | _ => false

/-- The day-of-month compatibility condition under which
`offsetDateAtPrecision` leaves the fields finer than `precision`
untouched: at YEAR and MONTH precision the original day of month must be
valid in the target year/month (otherwise the day overflow rolls forward);
at DAY precision and finer it always holds. -/
def offsetFinerSafe (d : DateObj) (precision offset : Int) : Bool :=
  if precision = 0 then
    decide (d.day ≤ (dimN (isLeap (d.year + offset)) d.month.toNat : Int))
  else if precision = 1 then
    decide (d.day ≤
      (dimN (isLeap (d.year + (d.month + offset) / 12)) ((d.month + offset) % 12).toNat : Int))
  else true

/-- Milliseconds per unit of the field addressed by a precision in `2..6`
(day, hour, minute, second, millisecond). -/
def unitMillis (precision : Int) : Int :=
  if precision = 2 then 86400000
  else if precision = 3 then 3600000
  else if precision = 4 then 60000
  else if precision = 5 then 1000
  else 1

/-- The year segment a parse isolates from a date string: strip one
leading minus sign, split on the delimiter, take the first segment. -/
def yearSegmentOf (dateString : List Char) (delimiter : Char) : List Char :=
  (splitOnChar delimiter
    (if dateString.head? == some '-' then dateString.tail else dateString)).headD []

/-- Whether a parse produced a date (no exception escaped). -/
def exceptIsOk (e : Except (List Char) DateObj) : Bool :=
  match e with
  | .ok _ => true
  | .error _ => false

theorem isLeap_iff (y : Int) :
    isLeap y = true ↔ ((y % 4 = 0 ∧ y % 100 ≠ 0) ∨ y % 400 = 0) := by
  simp [isLeap]

theorem isLeapN_iff (y : Nat) :
    isLeapN y = true ↔ ((y % 4 = 0 ∧ y % 100 ≠ 0) ∨ y % 400 = 0) := by
  simp [isLeapN]

theorem dby_succ (y : Int) :
    dby (y + 1) = dby y + (if isLeap y then 366 else 365) := by
  by_cases h : isLeap y = true
  · rw [if_pos h]
    rw [isLeap_iff] at h
    unfold dby
    rcases h with ⟨h1, h2⟩ | h3 <;> omega
  · rw [if_neg h]
    have h' : ¬ ((y % 4 = 0 ∧ y % 100 ≠ 0) ∨ y % 400 = 0) :=
      fun hc => h ((isLeap_iff y).mpr hc)
    unfold dby
    push_neg at h'
    omega

theorem isLeapN_natCast (y : Nat) : isLeap (y : Int) = isLeapN y := by
  rw [Bool.eq_iff_iff, isLeap_iff, isLeapN_iff]
  omega

theorem dbyN_natCast (y : Nat) : dby (y : Int) = (dbyN y : Int) := by
  induction y with
  | zero => decide
  | succ n ih =>
    have h : dby ((n : Int) + 1) = dby (n : Int) + (if isLeap (n : Int) then 366 else 365) :=
      dby_succ (n : Int)
    have hs : ((n + 1 : Nat) : Int) = (n : Int) + 1 := by push_cast; ring
    rw [hs, h, ih, isLeapN_natCast]
    show _ = ((dbyN n + yearLenN n : Nat) : Int)
    unfold yearLenN
    by_cases hl : isLeapN n = true
    · rw [if_pos hl, if_pos hl]; push_cast; ring
    · rw [if_neg hl, if_neg hl]; push_cast; ring

theorem dby_era (q r : Int) : dby (400 * q + r) = 146097 * q + dby r := by
  simp only [dby]
  omega

theorem isLeap_era (q r : Int) : isLeap (400 * q + r) = isLeap r := by
  have h4 : (400 * q + r) % 4 = r % 4 := by omega
  have h100 : (400 * q + r) % 100 = r % 100 := by omega
  have h400 : (400 * q + r) % 400 = r % 400 := by omega
  simp only [isLeap, h4, h100, h400]

theorem dimN_le_31 : ∀ (b : Bool) (m : Nat), dimN b m ≤ 31 := by
  intro b m
  match m with
  | 0 | 1 | 2 | 3 | 4 | 5 | 6 | 7 | 8 | 9 | 10 => cases b <;> decide
  | n + 11 => cases b <;> rfl

theorem dbyN_mono {a b : Nat} (h : a ≤ b) : dbyN a ≤ dbyN b := by
  induction b with
  | zero =>
    have ha : a = 0 := by omega
    subst ha
    exact Nat.le_refl _
  | succ n ih =>
    rcases Nat.lt_or_ge a (n + 1) with h' | h'
    · have h2 := ih (by omega)
      have h3 : dbyN (n + 1) = dbyN n + yearLenN n := rfl
      omega
    · have ha : a = n + 1 := by omega
      subst ha
      exact Nat.le_refl _

theorem doy_lt_yearLen :
    ∀ leap : Bool, ∀ m < 12, ∀ d < 32, 1 ≤ d → d ≤ dimN leap m →
      dbmN leap m + (d - 1) < (if leap then 366 else 365) := by decide

theorem findMonthAux_spec :
    ∀ leap : Bool, ∀ m < 12, ∀ k < 31, k < dimN leap m →
      findMonthAux leap 12 0 (dbmN leap m + k) = (m, k) := by decide

theorem findYearAux_spec (t k : Nat) (ht : t < 400) (hk : k < yearLenN t) :
    ∀ fuel yoe, yoe ≤ t → t - yoe < fuel →
      findYearAux fuel yoe (dbyN t - dbyN yoe + k) = (t, k) := by
  intro fuel
  induction fuel with
  | zero => omega
  | succ n ih =>
    intro yoe hle hfuel
    rcases Nat.lt_or_ge yoe t with hlt | hge
    · have hstep : dbyN (yoe + 1) = dbyN yoe + yearLenN yoe := rfl
      have hmono : dbyN (yoe + 1) ≤ dbyN t := dbyN_mono (by omega)
      have hbig : ¬ (dbyN t - dbyN yoe + k < yearLenN yoe) := by omega
      simp only [findYearAux, if_neg hbig]
      have harg : dbyN t - dbyN yoe + k - yearLenN yoe
          = dbyN t - dbyN (yoe + 1) + k := by omega
      rw [harg]
      exact ih (yoe + 1) (by omega) (by omega)
    · have heq : yoe = t := by omega
      subst heq
      simp only [findYearAux, Nat.sub_self, Nat.zero_add]
      rw [if_pos (by omega)]

theorem civilFromAdDay_adDay (y m d : Int)
    (h0m : 0 ≤ m) (hm : m < 12) (h1d : 1 ≤ d)
    (hd : d ≤ (dimN (isLeap y) m.toNat : Int)) :
    civilFromAdDay (adDay y m d) = (y, m, d) := by
  have h400 : (400 : Int) ≠ 0 := by norm_num
  set q := y / 400 with hq
  set r := y % 400 with hr
  have hy : y = 400 * q + r := by rw [hq, hr]; omega
  have hr0 : 0 ≤ r := Int.emod_nonneg y h400
  have hr400 : r < 400 := Int.emod_lt_of_pos y (by norm_num)
  set rN := r.toNat with hrN
  have hrcast : (rN : Int) = r := Int.toNat_of_nonneg hr0
  set mN := m.toNat with hmN
  have hmcast : (mN : Int) = m := Int.toNat_of_nonneg h0m
  have hmN12 : mN < 12 := by omega
  set dN := d.toNat with hdN
  have hdcast : (dN : Int) = d := Int.toNat_of_nonneg (by omega)
  have hleap : isLeap y = isLeapN rN := by
    rw [hy, ← hrcast, isLeap_era, isLeapN_natCast]
  -- day-of-month bound in Nat form
  have hdimN : dN ≤ dimN (isLeapN rN) mN := by
    rw [← hleap]; omega
  have hdN1 : 1 ≤ dN := by omega
  have hdN32 : dN < 32 := by
    have h31 := dimN_le_31 (isLeapN rN) mN
    omega
  -- decompose the absolute day number
  set k : Nat := dbmN (isLeapN rN) mN + (dN - 1) with hk
  have hkbound : k < yearLenN rN := by
    have := doy_lt_yearLen (isLeapN rN) mN hmN12 dN hdN32 hdN1 hdimN
    simpa [yearLenN, hk] using this
  set inner : Nat := dbyN rN + k with hinner
  have hinner146097 : inner < 146097 := by
    have h1 : dbyN rN + yearLenN rN = dbyN (rN + 1) := rfl
    have h2 : dbyN (rN + 1) ≤ dbyN 400 := dbyN_mono (by omega)
    have h3 : dbyN 400 = 146097 := by decide
    omega
  have hz : adDay y m d = 146097 * q + (inner : Int) := by
    have hdby : dby y = 146097 * q + (dbyN rN : Int) := by
      rw [hy, ← hrcast, dby_era, dbyN_natCast]
    have h1 : (inner : Int)
        = (dbyN rN : Int) + ((dbmN (isLeapN rN) mN : Nat) : Int) + ((dN : Int) - 1) := by
      simp only [hinner, hk]
      push_cast
      omega
    unfold adDay
    rw [hleap, ← hmN, hdby]
    omega
  have hediv : (adDay y m d) / 146097 = q := by rw [hz]; omega
  have hemod : (adDay y m d) % 146097 = (inner : Int) := by rw [hz]; omega
  simp only [civilFromAdDay, hediv, hemod, Int.toNat_natCast]
  have hfy : findYearAux 400 0 inner = (rN, k) := by
    have hspec := findYearAux_spec rN k (by omega) hkbound 400 0 (by omega) (by omega)
    have h0 : dbyN 0 = 0 := rfl
    have harg : dbyN rN - dbyN 0 + k = inner := by
      simp only [hinner]
      omega
    rw [harg] at hspec
    exact hspec
  rw [hfy]
  have hfm : findMonthAux (isLeapN rN) 12 0 k = (mN, dN - 1) := by
    have := findMonthAux_spec (isLeapN rN) mN hmN12 (dN - 1) (by omega) (by omega)
    simpa [hk] using this
  rw [hfm]
  refine Prod.ext ?_ (Prod.ext ?_ ?_) <;> simp <;> omega

/-! ## Setter characterizations on normalized dates -/

theorem dimN_le_leap : ∀ (b : Bool) (m : Nat), dimN b m ≤ dimN true m := by
  intro b m
  match m with
  | 0 | 1 | 2 | 3 | 4 | 5 | 6 | 7 | 8 | 9 | 10 => cases b <;> decide
  | n + 11 => cases b <;> rfl

theorem dimN_ge_28 : ∀ (b : Bool) (m : Nat), 28 ≤ dimN b m := by
  intro b m
  match m with
  | 0 | 1 | 2 | 3 | 4 | 5 | 6 | 7 | 8 | 9 | 10 => cases b <;> decide
  | n + 11 =>
    cases b <;> exact (by decide : (28 : Nat) ≤ 31)

theorem makeDayJS_eq (y m d : Int) (h0 : 0 ≤ m) (h12 : m < 12) :
    makeDayJS y m d = adDay y m d := by
  unfold makeDayJS
  have h1 : m / 12 = 0 := by omega
  have h2 : m % 12 = m := by omega
  rw [h1, h2, add_zero]

theorem civil_makeDay (y m d : Int) (h0 : 0 ≤ m) (h12 : m < 12) (h1 : 1 ≤ d)
    (hd : d ≤ (dimN (isLeap y) m.toNat : Int)) :
    civilFromAdDay (makeDayJS y m d) = (y, m, d) := by
  rw [makeDayJS_eq y m d h0 h12]
  exact civilFromAdDay_adDay y m d h0 h12 h1 hd

theorem civilFromAdDay_adDay_roll (y m d : Int) (h0 : 0 ≤ m) (h12 : m < 12)
    (hlo : (dimN (isLeap y) m.toNat : Int) < d) (hhi : d ≤ 31) :
    civilFromAdDay (adDay y m d)
      = (y, m + 1, d - (dimN (isLeap y) m.toNat : Int)) := by
  have hm11 : m < 11 := by
    by_contra hc
    have hm : m = 11 := by omega
    subst hm
    have h31 : dimN (isLeap y) ((11 : Int).toNat) = 31 := by
      cases isLeap y <;> decide
    omega
  have hstep : adDay y m d
      = adDay y (m + 1) (d - (dimN (isLeap y) m.toNat : Int)) := by
    unfold adDay
    have hm1 : (m + 1).toNat = m.toNat + 1 := by omega
    rw [hm1]
    have hdbm : dbmN (isLeap y) (m.toNat + 1)
        = dbmN (isLeap y) m.toNat + dimN (isLeap y) m.toNat := rfl
    rw [hdbm]
    push_cast
    ring
  rw [hstep]
  have h28 := dimN_ge_28 (isLeap y) m.toNat
  have h28b := dimN_ge_28 (isLeap y) ((m + 1).toNat)
  exact civilFromAdDay_adDay y (m + 1) (d - (dimN (isLeap y) m.toNat : Int))
    (by omega) (by omega) (by omega) (by omega)

theorem setUTCFullYear_roll (d : DateObj) (v : Int)
    (h0 : 0 ≤ d.month) (h12 : d.month < 12) (hhi : d.day ≤ 31)
    (hlo : (dimN (isLeap v) d.month.toNat : Int) < d.day) :
    setUTCFullYear d v
      = { d with year := v, month := d.month + 1,
                 day := d.day - (dimN (isLeap v) d.month.toNat : Int) } := by
  unfold setUTCFullYear withCivil
  rw [makeDayJS_eq v d.month d.day h0 h12,
    civilFromAdDay_adDay_roll v d.month d.day h0 h12 hlo hhi]

theorem setUTCMonth_roll (d : DateObj) (v : Int) (hhi : d.day ≤ 31)
    (hlo : (dimN (isLeap (d.year + v / 12)) ((v % 12).toNat) : Int) < d.day) :
    setUTCMonth d v
      = { d with year := d.year + v / 12, month := v % 12 + 1,
                 day := d.day - (dimN (isLeap (d.year + v / 12)) ((v % 12).toNat) : Int) } := by
  unfold setUTCMonth makeDayJS withCivil
  rw [civilFromAdDay_adDay_roll (d.year + v / 12) (v % 12) d.day (by omega) (by omega) hlo hhi]

theorem setUTCFullYear_spec (d : DateObj) (v : Int)
    (h0 : 0 ≤ d.month) (h12 : d.month < 12) (h1 : 1 ≤ d.day)
    (hd : d.day ≤ (dimN (isLeap v) d.month.toNat : Int)) :
    setUTCFullYear d v = { d with year := v } := by
  unfold setUTCFullYear withCivil
  rw [civil_makeDay v d.month d.day h0 h12 h1 hd]

theorem setUTCMonth_spec (d : DateObj) (v : Int) (h1 : 1 ≤ d.day)
    (hd : d.day ≤ (dimN (isLeap (d.year + v / 12)) ((v % 12).toNat) : Int)) :
    setUTCMonth d v = { d with year := d.year + v / 12, month := v % 12 } := by
  unfold setUTCMonth makeDayJS withCivil
  rw [civilFromAdDay_adDay (d.year + v / 12) (v % 12) d.day (by omega) (by omega) h1 hd]

theorem setUTCDate_spec (d : DateObj) (v : Int)
    (h0 : 0 ≤ d.month) (h12 : d.month < 12) (h1 : 1 ≤ v)
    (hd : v ≤ (dimN (isLeap d.year) d.month.toNat : Int)) :
    setUTCDate d v = { d with day := v } := by
  unfold setUTCDate withCivil
  rw [civil_makeDay d.year d.month v h0 h12 h1 hd]

theorem setTimeOfDayMs_spec (d : DateObj) (t : Int) (hd : WF d)
    (h0 : 0 ≤ t) (ht : t < 86400000) :
    setTimeOfDayMs d t =
      { d with hour := t / 3600000, minute := (t % 3600000) / 60000,
               second := (t % 60000) / 1000, millisecond := t % 1000 } := by
  obtain ⟨hm0, hm12, hd1, hdd, _, _, _, _, _, _, _, _⟩ := hd
  unfold setTimeOfDayMs withCivil
  have hdiv : t / 86400000 = 0 := by omega
  have hmod : t % 86400000 = t := by omega
  rw [hdiv, hmod, add_zero, civilFromAdDay_adDay d.year d.month d.day hm0 hm12 hd1 hdd]

theorem setUTCHours_spec (d : DateObj) (v : Int) (hd : WF d)
    (h0 : 0 ≤ v) (hv : v < 24) :
    setUTCHours d v = { d with hour := v } := by
  obtain ⟨hm0, hm12, hd1, hdd, hh0, hh, hmi0, hmi, hs0, hs, hms0, hms⟩ := hd
  unfold setUTCHours
  rw [setTimeOfDayMs_spec d _ ⟨hm0, hm12, hd1, hdd, hh0, hh, hmi0, hmi, hs0, hs, hms0, hms⟩
    (by omega) (by omega)]
  have e1 : (v * 3600000 + d.minute * 60000 + d.second * 1000 + d.millisecond) / 3600000 = v := by
    omega
  have e2 : ((v * 3600000 + d.minute * 60000 + d.second * 1000 + d.millisecond) % 3600000) / 60000
      = d.minute := by omega
  have e3 : ((v * 3600000 + d.minute * 60000 + d.second * 1000 + d.millisecond) % 60000) / 1000
      = d.second := by omega
  have e4 : (v * 3600000 + d.minute * 60000 + d.second * 1000 + d.millisecond) % 1000
      = d.millisecond := by omega
  rw [e1, e2, e3, e4]

theorem setUTCMinutes_spec (d : DateObj) (v : Int) (hd : WF d)
    (h0 : 0 ≤ v) (hv : v < 60) :
    setUTCMinutes d v = { d with minute := v } := by
  obtain ⟨hm0, hm12, hd1, hdd, hh0, hh, hmi0, hmi, hs0, hs, hms0, hms⟩ := hd
  unfold setUTCMinutes
  rw [setTimeOfDayMs_spec d _ ⟨hm0, hm12, hd1, hdd, hh0, hh, hmi0, hmi, hs0, hs, hms0, hms⟩
    (by omega) (by omega)]
  have e1 : (d.hour * 3600000 + v * 60000 + d.second * 1000 + d.millisecond) / 3600000
      = d.hour := by omega
  have e2 : ((d.hour * 3600000 + v * 60000 + d.second * 1000 + d.millisecond) % 3600000) / 60000
      = v := by omega
  have e3 : ((d.hour * 3600000 + v * 60000 + d.second * 1000 + d.millisecond) % 60000) / 1000
      = d.second := by omega
  have e4 : (d.hour * 3600000 + v * 60000 + d.second * 1000 + d.millisecond) % 1000
      = d.millisecond := by omega
  rw [e1, e2, e3, e4]

theorem setUTCSeconds_spec (d : DateObj) (v : Int) (hd : WF d)
    (h0 : 0 ≤ v) (hv : v < 60) :
    setUTCSeconds d v = { d with second := v } := by
  obtain ⟨hm0, hm12, hd1, hdd, hh0, hh, hmi0, hmi, hs0, hs, hms0, hms⟩ := hd
  unfold setUTCSeconds
  rw [setTimeOfDayMs_spec d _ ⟨hm0, hm12, hd1, hdd, hh0, hh, hmi0, hmi, hs0, hs, hms0, hms⟩
    (by omega) (by omega)]
  have e1 : (d.hour * 3600000 + d.minute * 60000 + v * 1000 + d.millisecond) / 3600000
      = d.hour := by omega
  have e2 : ((d.hour * 3600000 + d.minute * 60000 + v * 1000 + d.millisecond) % 3600000) / 60000
      = d.minute := by omega
  have e3 : ((d.hour * 3600000 + d.minute * 60000 + v * 1000 + d.millisecond) % 60000) / 1000
      = v := by omega
  have e4 : (d.hour * 3600000 + d.minute * 60000 + v * 1000 + d.millisecond) % 1000
      = d.millisecond := by omega
  rw [e1, e2, e3, e4]

theorem setUTCMilliseconds_spec (d : DateObj) (v : Int) (hd : WF d)
    (h0 : 0 ≤ v) (hv : v < 1000) :
    setUTCMilliseconds d v = { d with millisecond := v } := by
  obtain ⟨hm0, hm12, hd1, hdd, hh0, hh, hmi0, hmi, hs0, hs, hms0, hms⟩ := hd
  unfold setUTCMilliseconds
  rw [setTimeOfDayMs_spec d _ ⟨hm0, hm12, hd1, hdd, hh0, hh, hmi0, hmi, hs0, hs, hms0, hms⟩
    (by omega) (by omega)]
  have e1 : (d.hour * 3600000 + d.minute * 60000 + d.second * 1000 + v) / 3600000
      = d.hour := by omega
  have e2 : ((d.hour * 3600000 + d.minute * 60000 + d.second * 1000 + v) % 3600000) / 60000
      = d.minute := by omega
  have e3 : ((d.hour * 3600000 + d.minute * 60000 + d.second * 1000 + v) % 60000) / 1000
      = d.second := by omega
  have e4 : (d.hour * 3600000 + d.minute * 60000 + d.second * 1000 + v) % 1000 = v := by
    omega
  rw [e1, e2, e3, e4]

/-! ## Truncation characterized field-by-field -/

theorem getDateAtPrecision_unfold_m1 (d : DateObj) :
    getDateAtPrecision d (-1) = setUTCMilliseconds (setUTCSeconds (setUTCMinutes (setUTCHours
      (setUTCDate (setUTCMonth (setUTCFullYear d 0) 0) 1) 0) 0) 0) 0 := rfl

theorem getDateAtPrecision_unfold_0 (d : DateObj) :
    getDateAtPrecision d 0 = setUTCMilliseconds (setUTCSeconds (setUTCMinutes (setUTCHours
      (setUTCDate (setUTCMonth d 0) 1) 0) 0) 0) 0 := rfl

theorem getDateAtPrecision_unfold_1 (d : DateObj) :
    getDateAtPrecision d 1 = setUTCMilliseconds (setUTCSeconds (setUTCMinutes (setUTCHours
      (setUTCDate d 1) 0) 0) 0) 0 := rfl

theorem getDateAtPrecision_unfold_2 (d : DateObj) :
    getDateAtPrecision d 2 = setUTCMilliseconds (setUTCSeconds (setUTCMinutes
      (setUTCHours d 0) 0) 0) 0 := rfl

theorem getDateAtPrecision_unfold_3 (d : DateObj) :
    getDateAtPrecision d 3 = setUTCMilliseconds (setUTCSeconds (setUTCMinutes d 0) 0) 0 := rfl

theorem getDateAtPrecision_unfold_4 (d : DateObj) :
    getDateAtPrecision d 4 = setUTCMilliseconds (setUTCSeconds d 0) 0 := rfl

theorem getDateAtPrecision_unfold_5 (d : DateObj) :
    getDateAtPrecision d 5 = setUTCMilliseconds d 0 := rfl

theorem getDateAtPrecision_unfold_6 (d : DateObj) :
    getDateAtPrecision d 6 = d := rfl

theorem getDateAtPrecision_m1 (d : DateObj) (hd : WF d) :
    getDateAtPrecision d (-1) = ⟨0, 0, 1, 0, 0, 0, 0⟩ := by
  obtain ⟨hm0, hm12, hd1, hdd, hh0, hh, hmi0, hmi, hs0, hs, hms0, hms⟩ := hd
  rw [getDateAtPrecision_unfold_m1]
  have c1 : (0 : Int) ≤ 0 := by decide
  have c2 : (0 : Int) < 12 := by decide
  have c3 : (1 : Int) ≤ 1 := by decide
  have c4 : (1 : Int) ≤ ((31 : Nat) : Int) := by decide
  have c5 : (0 : Int) < 24 := by decide
  have c6 : (0 : Int) < 60 := by decide
  have c7 : (0 : Int) < 1000 := by decide
  have hleap0 : isLeap 0 = true := rfl
  have hday0 : d.day ≤ (dimN (isLeap 0) d.month.toNat : Int) := by
    have h := dimN_le_leap (isLeap d.year) d.month.toNat
    rw [hleap0]
    omega
  rw [setUTCFullYear_spec d 0 hm0 hm12 hd1 hday0]
  have hday31 : d.day ≤ ((31 : Nat) : Int) := by
    have h31 := dimN_le_31 (isLeap d.year) d.month.toNat
    omega
  have h2 : setUTCMonth { d with year := 0 } 0 = { d with year := 0, month := 0 } := by
    rw [setUTCMonth_spec { d with year := 0 } 0 hd1 hday31]
    rfl
  rw [h2]
  have h3 : setUTCDate { d with year := 0, month := 0 } 1
      = { d with year := 0, month := 0, day := 1 } := by
    rw [setUTCDate_spec { d with year := 0, month := 0 } 1 c1 c2 c3 c4]
  rw [h3]
  have hwf3 : WF { d with year := 0, month := 0, day := 1 } :=
    ⟨c1, c2, c3, c4, hh0, hh, hmi0, hmi, hs0, hs, hms0, hms⟩
  rw [setUTCHours_spec _ 0 hwf3 c1 c5]
  have hwf4 : WF { d with year := 0, month := 0, day := 1, hour := 0 } :=
    ⟨c1, c2, c3, c4, c1, c5, hmi0, hmi, hs0, hs, hms0, hms⟩
  rw [setUTCMinutes_spec _ 0 hwf4 c1 c6]
  have hwf5 : WF { d with year := 0, month := 0, day := 1, hour := 0, minute := 0 } :=
    ⟨c1, c2, c3, c4, c1, c5, c1, c6, hs0, hs, hms0, hms⟩
  rw [setUTCSeconds_spec _ 0 hwf5 c1 c6]
  have hwf6 :
      WF { d with year := 0, month := 0, day := 1, hour := 0, minute := 0, second := 0 } :=
    ⟨c1, c2, c3, c4, c1, c5, c1, c6, c1, c6, hms0, hms⟩
  rw [setUTCMilliseconds_spec _ 0 hwf6 c1 c7]

theorem getDateAtPrecision_0 (d : DateObj) (hd : WF d) :
    getDateAtPrecision d 0 = ⟨d.year, 0, 1, 0, 0, 0, 0⟩ := by
  obtain ⟨hm0, hm12, hd1, hdd, hh0, hh, hmi0, hmi, hs0, hs, hms0, hms⟩ := hd
  rw [getDateAtPrecision_unfold_0]
  have c1 : (0 : Int) ≤ 0 := by decide
  have c2 : (0 : Int) < 12 := by decide
  have c3 : (1 : Int) ≤ 1 := by decide
  have c4 : (1 : Int) ≤ ((31 : Nat) : Int) := by decide
  have c5 : (0 : Int) < 24 := by decide
  have c6 : (0 : Int) < 60 := by decide
  have c7 : (0 : Int) < 1000 := by decide
  have hday31 : d.day ≤ ((31 : Nat) : Int) := by
    have h31 := dimN_le_31 (isLeap d.year) d.month.toNat
    omega
  have h1 : setUTCMonth d 0 = { d with year := d.year, month := 0 } := by
    rw [setUTCMonth_spec d 0 hd1 hday31]
    have e : d.year + 0 / 12 = d.year := by omega
    rw [e]
    rfl
  rw [h1]
  have h2 : setUTCDate { d with year := d.year, month := 0 } 1
      = { d with year := d.year, month := 0, day := 1 } := by
    rw [setUTCDate_spec { d with year := d.year, month := 0 } 1 c1 c2 c3 c4]
  rw [h2]
  have hwf3 : WF { d with year := d.year, month := 0, day := 1 } :=
    ⟨c1, c2, c3, c4, hh0, hh, hmi0, hmi, hs0, hs, hms0, hms⟩
  rw [setUTCHours_spec _ 0 hwf3 c1 c5]
  have hwf4 : WF { d with year := d.year, month := 0, day := 1, hour := 0 } :=
    ⟨c1, c2, c3, c4, c1, c5, hmi0, hmi, hs0, hs, hms0, hms⟩
  rw [setUTCMinutes_spec _ 0 hwf4 c1 c6]
  have hwf5 : WF { d with year := d.year, month := 0, day := 1, hour := 0, minute := 0 } :=
    ⟨c1, c2, c3, c4, c1, c5, c1, c6, hs0, hs, hms0, hms⟩
  rw [setUTCSeconds_spec _ 0 hwf5 c1 c6]
  have hwf6 :
      WF { d with year := d.year, month := 0, day := 1, hour := 0, minute := 0, second := 0 } :=
    ⟨c1, c2, c3, c4, c1, c5, c1, c6, c1, c6, hms0, hms⟩
  rw [setUTCMilliseconds_spec _ 0 hwf6 c1 c7]

theorem getDateAtPrecision_1 (d : DateObj) (hd : WF d) :
    getDateAtPrecision d 1 = ⟨d.year, d.month, 1, 0, 0, 0, 0⟩ := by
  obtain ⟨hm0, hm12, hd1, hdd, hh0, hh, hmi0, hmi, hs0, hs, hms0, hms⟩ := hd
  rw [getDateAtPrecision_unfold_1]
  have c1 : (0 : Int) ≤ 0 := by decide
  have c3 : (1 : Int) ≤ 1 := by decide
  have c5 : (0 : Int) < 24 := by decide
  have c6 : (0 : Int) < 60 := by decide
  have c7 : (0 : Int) < 1000 := by decide
  have hdim1 : (1 : Int) ≤ (dimN (isLeap d.year) d.month.toNat : Int) := by
    have h28 := dimN_ge_28 (isLeap d.year) d.month.toNat
    omega
  have h1 : setUTCDate d 1 = { d with day := 1 } :=
    setUTCDate_spec d 1 hm0 hm12 c3 hdim1
  rw [h1]
  have hwf1 : WF { d with day := 1 } :=
    ⟨hm0, hm12, c3, hdim1, hh0, hh, hmi0, hmi, hs0, hs, hms0, hms⟩
  rw [setUTCHours_spec _ 0 hwf1 c1 c5]
  have hwf2 : WF { d with day := 1, hour := 0 } :=
    ⟨hm0, hm12, c3, hdim1, c1, c5, hmi0, hmi, hs0, hs, hms0, hms⟩
  rw [setUTCMinutes_spec _ 0 hwf2 c1 c6]
  have hwf3 : WF { d with day := 1, hour := 0, minute := 0 } :=
    ⟨hm0, hm12, c3, hdim1, c1, c5, c1, c6, hs0, hs, hms0, hms⟩
  rw [setUTCSeconds_spec _ 0 hwf3 c1 c6]
  have hwf4 : WF { d with day := 1, hour := 0, minute := 0, second := 0 } :=
    ⟨hm0, hm12, c3, hdim1, c1, c5, c1, c6, c1, c6, hms0, hms⟩
  rw [setUTCMilliseconds_spec _ 0 hwf4 c1 c7]

theorem getDateAtPrecision_2 (d : DateObj) (hd : WF d) :
    getDateAtPrecision d 2 = ⟨d.year, d.month, d.day, 0, 0, 0, 0⟩ := by
  obtain ⟨hm0, hm12, hd1, hdd, hh0, hh, hmi0, hmi, hs0, hs, hms0, hms⟩ := hd
  rw [getDateAtPrecision_unfold_2]
  have c1 : (0 : Int) ≤ 0 := by decide
  have c5 : (0 : Int) < 24 := by decide
  have c6 : (0 : Int) < 60 := by decide
  have c7 : (0 : Int) < 1000 := by decide
  rw [setUTCHours_spec d 0 ⟨hm0, hm12, hd1, hdd, hh0, hh, hmi0, hmi, hs0, hs, hms0, hms⟩ c1 c5]
  have hwf2 : WF { d with hour := 0 } :=
    ⟨hm0, hm12, hd1, hdd, c1, c5, hmi0, hmi, hs0, hs, hms0, hms⟩
  rw [setUTCMinutes_spec _ 0 hwf2 c1 c6]
  have hwf3 : WF { d with hour := 0, minute := 0 } :=
    ⟨hm0, hm12, hd1, hdd, c1, c5, c1, c6, hs0, hs, hms0, hms⟩
  rw [setUTCSeconds_spec _ 0 hwf3 c1 c6]
  have hwf4 : WF { d with hour := 0, minute := 0, second := 0 } :=
    ⟨hm0, hm12, hd1, hdd, c1, c5, c1, c6, c1, c6, hms0, hms⟩
  rw [setUTCMilliseconds_spec _ 0 hwf4 c1 c7]

theorem getDateAtPrecision_3 (d : DateObj) (hd : WF d) :
    getDateAtPrecision d 3 = ⟨d.year, d.month, d.day, d.hour, 0, 0, 0⟩ := by
  obtain ⟨hm0, hm12, hd1, hdd, hh0, hh, hmi0, hmi, hs0, hs, hms0, hms⟩ := hd
  rw [getDateAtPrecision_unfold_3]
  have c1 : (0 : Int) ≤ 0 := by decide
  have c6 : (0 : Int) < 60 := by decide
  have c7 : (0 : Int) < 1000 := by decide
  rw [setUTCMinutes_spec d 0 ⟨hm0, hm12, hd1, hdd, hh0, hh, hmi0, hmi, hs0, hs, hms0, hms⟩ c1 c6]
  have hwf2 : WF { d with minute := 0 } :=
    ⟨hm0, hm12, hd1, hdd, hh0, hh, c1, c6, hs0, hs, hms0, hms⟩
  rw [setUTCSeconds_spec _ 0 hwf2 c1 c6]
  have hwf3 : WF { d with minute := 0, second := 0 } :=
    ⟨hm0, hm12, hd1, hdd, hh0, hh, c1, c6, c1, c6, hms0, hms⟩
  rw [setUTCMilliseconds_spec _ 0 hwf3 c1 c7]

theorem getDateAtPrecision_4 (d : DateObj) (hd : WF d) :
    getDateAtPrecision d 4 = ⟨d.year, d.month, d.day, d.hour, d.minute, 0, 0⟩ := by
  obtain ⟨hm0, hm12, hd1, hdd, hh0, hh, hmi0, hmi, hs0, hs, hms0, hms⟩ := hd
  rw [getDateAtPrecision_unfold_4]
  have c1 : (0 : Int) ≤ 0 := by decide
  have c6 : (0 : Int) < 60 := by decide
  have c7 : (0 : Int) < 1000 := by decide
  rw [setUTCSeconds_spec d 0 ⟨hm0, hm12, hd1, hdd, hh0, hh, hmi0, hmi, hs0, hs, hms0, hms⟩ c1 c6]
  have hwf2 : WF { d with second := 0 } :=
    ⟨hm0, hm12, hd1, hdd, hh0, hh, hmi0, hmi, c1, c6, hms0, hms⟩
  rw [setUTCMilliseconds_spec _ 0 hwf2 c1 c7]

theorem getDateAtPrecision_5 (d : DateObj) (hd : WF d) :
    getDateAtPrecision d 5 = ⟨d.year, d.month, d.day, d.hour, d.minute, d.second, 0⟩ := by
  obtain ⟨hm0, hm12, hd1, hdd, hh0, hh, hmi0, hmi, hs0, hs, hms0, hms⟩ := hd
  rw [getDateAtPrecision_unfold_5]
  rw [setUTCMilliseconds_spec d 0 ⟨hm0, hm12, hd1, hdd, hh0, hh, hmi0, hmi, hs0, hs, hms0, hms⟩
    (by decide) (by decide)]

theorem getDateAtPrecision_6 (d : DateObj) :
    getDateAtPrecision d 6 = d := rfl


/-! ## Normalization of truncated dates -/

theorem WF_trunc0 (d : DateObj) : WF ⟨d.year, 0, 1, 0, 0, 0, 0⟩ :=
  ⟨(by decide : (0 : Int) ≤ 0), (by decide : (0 : Int) < 12), (by decide : (1 : Int) ≤ 1),
   (by decide : (1 : Int) ≤ ((31 : Nat) : Int)), (by decide : (0 : Int) ≤ 0),
   (by decide : (0 : Int) < 24), (by decide : (0 : Int) ≤ 0), (by decide : (0 : Int) < 60),
   (by decide : (0 : Int) ≤ 0), (by decide : (0 : Int) < 60), (by decide : (0 : Int) ≤ 0),
   (by decide : (0 : Int) < 1000)⟩

theorem WF_trunc1 (d : DateObj) (hd : WF d) : WF ⟨d.year, d.month, 1, 0, 0, 0, 0⟩ := by
  obtain ⟨hm0, hm12, _, _, _, _, _, _, _, _, _, _⟩ := hd
  have hdim1 : (1 : Int) ≤ (dimN (isLeap d.year) d.month.toNat : Int) := by
    have h := dimN_ge_28 (isLeap d.year) d.month.toNat
    omega
  exact ⟨hm0, hm12, (by decide : (1 : Int) ≤ 1), hdim1, (by decide : (0 : Int) ≤ 0),
    (by decide : (0 : Int) < 24), (by decide : (0 : Int) ≤ 0), (by decide : (0 : Int) < 60),
    (by decide : (0 : Int) ≤ 0), (by decide : (0 : Int) < 60), (by decide : (0 : Int) ≤ 0),
    (by decide : (0 : Int) < 1000)⟩

theorem WF_trunc2 (d : DateObj) (hd : WF d) : WF ⟨d.year, d.month, d.day, 0, 0, 0, 0⟩ := by
  obtain ⟨hm0, hm12, hd1, hdd, _, _, _, _, _, _, _, _⟩ := hd
  exact ⟨hm0, hm12, hd1, hdd, (by decide : (0 : Int) ≤ 0),
    (by decide : (0 : Int) < 24), (by decide : (0 : Int) ≤ 0), (by decide : (0 : Int) < 60),
    (by decide : (0 : Int) ≤ 0), (by decide : (0 : Int) < 60), (by decide : (0 : Int) ≤ 0),
    (by decide : (0 : Int) < 1000)⟩

theorem WF_trunc3 (d : DateObj) (hd : WF d) :
    WF ⟨d.year, d.month, d.day, d.hour, 0, 0, 0⟩ := by
  obtain ⟨hm0, hm12, hd1, hdd, hh0, hh, _, _, _, _, _, _⟩ := hd
  exact ⟨hm0, hm12, hd1, hdd, hh0, hh, (by decide : (0 : Int) ≤ 0),
    (by decide : (0 : Int) < 60), (by decide : (0 : Int) ≤ 0), (by decide : (0 : Int) < 60),
    (by decide : (0 : Int) ≤ 0), (by decide : (0 : Int) < 1000)⟩

theorem WF_trunc4 (d : DateObj) (hd : WF d) :
    WF ⟨d.year, d.month, d.day, d.hour, d.minute, 0, 0⟩ := by
  obtain ⟨hm0, hm12, hd1, hdd, hh0, hh, hmi0, hmi, _, _, _, _⟩ := hd
  exact ⟨hm0, hm12, hd1, hdd, hh0, hh, hmi0, hmi, (by decide : (0 : Int) ≤ 0),
    (by decide : (0 : Int) < 60), (by decide : (0 : Int) ≤ 0), (by decide : (0 : Int) < 1000)⟩

theorem WF_trunc5 (d : DateObj) (hd : WF d) :
    WF ⟨d.year, d.month, d.day, d.hour, d.minute, d.second, 0⟩ := by
  obtain ⟨hm0, hm12, hd1, hdd, hh0, hh, hmi0, hmi, hs0, hs, _, _⟩ := hd
  exact ⟨hm0, hm12, hd1, hdd, hh0, hh, hmi0, hmi, hs0, hs, (by decide : (0 : Int) ≤ 0),
    (by decide : (0 : Int) < 1000)⟩

/-- C8: Truncation is idempotent: for every normalized date `d` and every
precision `p` in `0..6`, truncating twice at `p` equals truncating once
(equality of the underlying instants, i.e. of the field records). -/
theorem C8_getDateAtPrecision_idempotent (d : DateObj) (p : Int) (hd : WF d)
    (hp0 : 0 ≤ p) (hp6 : p ≤ 6) :
    getDateAtPrecision (getDateAtPrecision d p) p = getDateAtPrecision d p := by
  have hp : p = 0 ∨ p = 1 ∨ p = 2 ∨ p = 3 ∨ p = 4 ∨ p = 5 ∨ p = 6 := by omega
  rcases hp with h | h | h | h | h | h | h <;> subst h
  · rw [getDateAtPrecision_0 d hd, getDateAtPrecision_0 _ (WF_trunc0 d)]
  · rw [getDateAtPrecision_1 d hd, getDateAtPrecision_1 _ (WF_trunc1 d hd)]
  · rw [getDateAtPrecision_2 d hd, getDateAtPrecision_2 _ (WF_trunc2 d hd)]
  · rw [getDateAtPrecision_3 d hd, getDateAtPrecision_3 _ (WF_trunc3 d hd)]
  · rw [getDateAtPrecision_4 d hd, getDateAtPrecision_4 _ (WF_trunc4 d hd)]
  · rw [getDateAtPrecision_5 d hd, getDateAtPrecision_5 _ (WF_trunc5 d hd)]
  · rw [getDateAtPrecision_6, getDateAtPrecision_6]

/-- C8 witness: the idempotence theorem applied at a concrete date and
precision. -/
theorem C8_witness :
    getDateAtPrecision (getDateAtPrecision ⟨2026, 5, 17, 7, 8, 9, 10⟩ 1) 1
      = getDateAtPrecision ⟨2026, 5, 17, 7, 8, 9, 10⟩ 1 :=
  C8_getDateAtPrecision_idempotent ⟨2026, 5, 17, 7, 8, 9, 10⟩ 1 (by decide) (by decide)
    (by decide)

/-- C3 (amended): for every normalized date `d` and precision `p` in
`0..6`, `getDateAtPrecision` sets every field strictly finer than `p` to
its zero point (month to 0, day to 1, time fields to 0), leaves every
field at-or-coarser-than `p` unchanged, and — per the allocation structure
of the reduce — returns a fresh object exactly when `p < 6`; at `p = 6` no
handler runs and the input object itself is returned.  (The embedding is
pure, so the input record is never modified.) -/
theorem C3_getDateAtPrecision_fields (d : DateObj) (p : Int) (hd : WF d)
    (hp0 : 0 ≤ p) (hp6 : p ≤ 6) :
    (∀ i : Nat, i ≤ 6 → (i : Int) ≤ p → fieldAt (getDateAtPrecision d p) i = fieldAt d i) ∧
    (∀ i : Nat, i ≤ 6 → p < (i : Int) → fieldAt (getDateAtPrecision d p) i = zeroPointAt i) ∧
    (getDateAtPrecisionMakesCopy p = decide (p < 6)) := by
  have hp : p = 0 ∨ p = 1 ∨ p = 2 ∨ p = 3 ∨ p = 4 ∨ p = 5 ∨ p = 6 := by omega
  rcases hp with h | h | h | h | h | h | h <;> subst h
  · rw [getDateAtPrecision_0 d hd]
    refine ⟨?_, ?_, by decide⟩ <;>
      · intro i hi hcmp
        interval_cases i <;> first | rfl | exact absurd hcmp (by decide)
  · rw [getDateAtPrecision_1 d hd]
    refine ⟨?_, ?_, by decide⟩ <;>
      · intro i hi hcmp
        interval_cases i <;> first | rfl | exact absurd hcmp (by decide)
  · rw [getDateAtPrecision_2 d hd]
    refine ⟨?_, ?_, by decide⟩ <;>
      · intro i hi hcmp
        interval_cases i <;> first | rfl | exact absurd hcmp (by decide)
  · rw [getDateAtPrecision_3 d hd]
    refine ⟨?_, ?_, by decide⟩ <;>
      · intro i hi hcmp
        interval_cases i <;> first | rfl | exact absurd hcmp (by decide)
  · rw [getDateAtPrecision_4 d hd]
    refine ⟨?_, ?_, by decide⟩ <;>
      · intro i hi hcmp
        interval_cases i <;> first | rfl | exact absurd hcmp (by decide)
  · rw [getDateAtPrecision_5 d hd]
    refine ⟨?_, ?_, by decide⟩ <;>
      · intro i hi hcmp
        interval_cases i <;> first | rfl | exact absurd hcmp (by decide)
  · rw [getDateAtPrecision_6 d]
    refine ⟨?_, ?_, by decide⟩ <;>
      · intro i hi hcmp
        interval_cases i <;> first | rfl | exact absurd hcmp (by decide)

/-- C3 counterexample: at precision `MILLISECOND(6)` the reduce runs no
handler and returns the input object itself, not a new object — refuting
the claim that every precision in `0..6` yields a new instant object
independent of the input.  (The field values are trivially unchanged.) -/
theorem C3_counterexample :
    getDateAtPrecisionMakesCopy 6 = false ∧
    WF ⟨2020, 5, 15, 10, 20, 30, 400⟩ ∧
    getDateAtPrecision ⟨2020, 5, 15, 10, 20, 30, 400⟩ 6 = ⟨2020, 5, 15, 10, 20, 30, 400⟩ := by
  exact ⟨rfl, by decide, rfl⟩

/-- C3 witness: the amended theorem applied at a concrete date and
precision. -/
theorem C3_witness :
    fieldAt (getDateAtPrecision ⟨2026, 5, 17, 7, 8, 9, 10⟩ 1) 1
        = fieldAt ⟨2026, 5, 17, 7, 8, 9, 10⟩ 1 ∧
    fieldAt (getDateAtPrecision ⟨2026, 5, 17, 7, 8, 9, 10⟩ 1) 2 = zeroPointAt 2 ∧
    getDateAtPrecisionMakesCopy 1 = decide ((1 : Int) < 6) := by
  have h := C3_getDateAtPrecision_fields ⟨2026, 5, 17, 7, 8, 9, 10⟩ 1 (by decide) (by decide)
    (by decide)
  exact ⟨h.1 1 (by decide) (by decide), h.2.1 2 (by decide) (by decide), h.2.2⟩


/-- C9: `clampDateWithinRange` returns `maxDate` when `date` is strictly
later than `maxDate` — unless `maxDate` is itself strictly earlier than
`minDate`, in which case the later min-check overrides and yields
`minDate` — else `minDate` when `date` is strictly earlier than `minDate`,
else `date` unchanged; comparison is by `valueOf` instant. -/
theorem C9_clampDateWithinRange_spec (date minDate maxDate : DateObj) :
    (clampDateWithinRange date minDate maxDate =
      if dateValueOf date > dateValueOf maxDate then
        (if dateValueOf maxDate < dateValueOf minDate then minDate else maxDate)
      else if dateValueOf date < dateValueOf minDate then minDate else date) ∧
    (dateValueOf maxDate < dateValueOf minDate → dateValueOf date > dateValueOf maxDate →
      clampDateWithinRange date minDate maxDate = minDate) := by
  constructor
  · simp only [clampDateWithinRange]
    by_cases h1 : dateValueOf date > dateValueOf maxDate
    · rw [if_pos h1, if_pos h1]
    · rw [if_neg h1, if_neg h1]
  · intro hmm hdm
    simp only [clampDateWithinRange]
    rw [if_pos hdm, if_pos hmm]

/-- C9 witness: the clamp specification applied with an inverted range
(`maxDate < minDate`) and a date beyond `maxDate`, observing `minDate`. -/
theorem C9_witness :
    clampDateWithinRange ⟨2026, 0, 1, 0, 0, 0, 0⟩ ⟨2025, 0, 1, 0, 0, 0, 0⟩
      ⟨2020, 0, 1, 0, 0, 0, 0⟩ = ⟨2025, 0, 1, 0, 0, 0, 0⟩ :=
  (C9_clampDateWithinRange_spec ⟨2026, 0, 1, 0, 0, 0, 0⟩ ⟨2025, 0, 1, 0, 0, 0, 0⟩
    ⟨2020, 0, 1, 0, 0, 0, 0⟩).2 (by decide) (by decide)

/-- C10 counterexample: `getNumber(Infinity, 0)` returns `Infinity`, not
the fallback — the guard is `typeof value === 'number' && !isNaN(value)`,
which infinities pass. -/
theorem C10_counterexample :
    getNumber (JSValue.num JSNumber.posInf) (JSValue.num (JSNumber.finite 0))
      = JSValue.num JSNumber.posInf ∧
    JSValue.num JSNumber.posInf ≠ JSValue.num (JSNumber.finite 0) := by
  refine ⟨rfl, ?_⟩
  simp

/-- C10 (amended): `getNumber(value, fallback)` returns `value` unchanged
exactly when `value` is of number type and not NaN (finite numbers and the
infinities), and returns `fallback` otherwise (NaN and every non-number). -/
theorem C10_getNumber_spec (value defaultValue : JSValue) :
    getNumber value defaultValue =
      if isNonNaNNumber value then value else defaultValue := by
  cases value <;> try rfl
  next n => cases n <;> rfl

/-- C2: the resolution-name mapping as the source defines it: total on the
eight names, but `millisecond` maps to 5 — colliding with `second` and
contradicting both the module's own precision documentation (`6:
millisecond`) and the declared date/day-only aliasing. -/
theorem C2_resolution_mapping_eval :
    getPrecisionByResolution "millisecond" = some 5 ∧
    getPrecisionByResolution "second" = some 5 ∧
    getPrecisionByResolution "year" = some 0 ∧
    getPrecisionByResolution "month" = some 1 ∧
    getPrecisionByResolution "date" = some 2 ∧
    getPrecisionByResolution "day" = some 2 ∧
    getPrecisionByResolution "hour" = some 3 ∧
    getPrecisionByResolution "minute" = some 4 ∧
    getPrecisionByResolution "fortnight" = none := by
  decide


/-! ## Inverse of the civil conversion -/

theorem findYearAux_inv_eq :
    ∀ (fuel yoe rem y k : Nat), dbyN yoe + rem < dbyN (yoe + fuel) →
      findYearAux fuel yoe rem = (y, k) →
      dbyN y + k = dbyN yoe + rem ∧ k < yearLenN y ∧ y < yoe + fuel := by
  intro fuel
  induction fuel with
  | zero =>
    intro yoe rem y k h he
    rw [Nat.add_zero] at h
    omega
  | succ n ih =>
    intro yoe rem y k h he
    by_cases hlt : rem < yearLenN yoe
    · simp only [findYearAux, if_pos hlt] at he
      injection he with he1 he2
      subst he1
      subst he2
      omega
    · simp only [findYearAux, if_neg hlt] at he
      have hstep : dbyN (yoe + 1) = dbyN yoe + yearLenN yoe := rfl
      have harg : yoe + (n + 1) = (yoe + 1) + n := by omega
      rw [harg] at h
      have h' : dbyN (yoe + 1) + (rem - yearLenN yoe) < dbyN ((yoe + 1) + n) := by omega
      have hc := ih (yoe + 1) (rem - yearLenN yoe) y k h' he
      omega

theorem findYearAux_inv (fuel yoe rem : Nat) (h : dbyN yoe + rem < dbyN (yoe + fuel)) :
    dbyN (findYearAux fuel yoe rem).1 + (findYearAux fuel yoe rem).2 = dbyN yoe + rem ∧
    (findYearAux fuel yoe rem).2 < yearLenN (findYearAux fuel yoe rem).1 ∧
    (findYearAux fuel yoe rem).1 < yoe + fuel :=
  findYearAux_inv_eq fuel yoe rem (findYearAux fuel yoe rem).1 (findYearAux fuel yoe rem).2 h
    rfl

theorem findMonthAux_inv :
    ∀ (leap : Bool), ∀ doy < 366, doy < (if leap then 366 else 365) →
      (findMonthAux leap 12 0 doy).1 < 12 ∧
      (findMonthAux leap 12 0 doy).2 < dimN leap (findMonthAux leap 12 0 doy).1 ∧
      dbmN leap (findMonthAux leap 12 0 doy).1 + (findMonthAux leap 12 0 doy).2 = doy := by
  decide

theorem civilFromAdDay_bounds (z : Int) :
    adDay (civilFromAdDay z).1 (civilFromAdDay z).2.1 (civilFromAdDay z).2.2 = z ∧
    0 ≤ (civilFromAdDay z).2.1 ∧ (civilFromAdDay z).2.1 < 12 ∧
    1 ≤ (civilFromAdDay z).2.2 ∧
    (civilFromAdDay z).2.2 ≤
      (dimN (isLeap (civilFromAdDay z).1) ((civilFromAdDay z).2.1).toNat : Int) := by
  have h146097 : (146097 : Int) ≠ 0 := by norm_num
  have hr0 : 0 ≤ z % 146097 := Int.emod_nonneg z h146097
  have hr146097 : z % 146097 < 146097 := Int.emod_lt_of_pos z (by norm_num)
  have hdby400 : dbyN 400 = 146097 := by decide
  have h0 : dbyN 0 = 0 := rfl
  have hy := findYearAux_inv 400 0 (z % 146097).toNat (by
    have h0400 : dbyN (0 + 400) = 146097 := by decide
    omega)
  have hcivil : civilFromAdDay z =
      (400 * (z / 146097) + ((findYearAux 400 0 (z % 146097).toNat).1 : Int),
       ((findMonthAux (isLeapN (findYearAux 400 0 (z % 146097).toNat).1) 12 0
          (findYearAux 400 0 (z % 146097).toNat).2).1 : Int),
       ((findMonthAux (isLeapN (findYearAux 400 0 (z % 146097).toNat).1) 12 0
          (findYearAux 400 0 (z % 146097).toNat).2).2 : Int) + 1) := rfl
  rw [hcivil]
  dsimp only
  set yoe := (findYearAux 400 0 (z % 146097).toNat).1 with hyoe
  set doy := (findYearAux 400 0 (z % 146097).toNat).2 with hdoy
  have hyoe400 : yoe < 400 := by omega
  have hdoylen : doy < yearLenN yoe := hy.2.1
  have hdoy366 : doy < 366 := by
    have hyl : yearLenN yoe ≤ 366 := by unfold yearLenN; split <;> omega
    omega
  have hm := findMonthAux_inv (isLeapN yoe) doy hdoy366 hdoylen
  set mN := (findMonthAux (isLeapN yoe) 12 0 doy).1 with hmN
  set dN := (findMonthAux (isLeapN yoe) 12 0 doy).2 with hdN
  have hleap : isLeap (400 * (z / 146097) + (yoe : Int)) = isLeapN yoe := by
    rw [isLeap_era, isLeapN_natCast]
  refine ⟨?_, by omega, by omega, by omega, ?_⟩
  · unfold adDay
    rw [hleap]
    have hdbm : ((mN : Int)).toNat = mN := by omega
    rw [hdbm]
    have hdby : dby (400 * (z / 146097) + (yoe : Int))
        = 146097 * (z / 146097) + (dbyN yoe : Int) := by
      rw [dby_era, dbyN_natCast]
    rw [hdby]
    have h1 := hy.1
    have h2 := hm.2.2
    omega
  · have hdim : ((mN : Int)).toNat = mN := by omega
    rw [hleap, hdim]
    have hlt := hm.2.1
    omega

theorem dateValueOf_setTimeOfDayMs (d : DateObj) (t : Int) :
    dateValueOf (setTimeOfDayMs d t)
      = (adDay d.year d.month d.day - 719528) * 86400000 + t := by
  unfold dateValueOf setTimeOfDayMs withCivil
  dsimp only
  rw [(civilFromAdDay_bounds (adDay d.year d.month d.day + t / 86400000)).1]
  omega

theorem offsetDateAtPrecision_unfold_0 (d : DateObj) (offset : Int) :
    offsetDateAtPrecision d 0 offset = setUTCFullYear d (d.year + offset) := rfl

theorem offsetDateAtPrecision_unfold_1 (d : DateObj) (offset : Int) :
    offsetDateAtPrecision d 1 offset = setUTCMonth d (d.month + offset) := rfl

theorem offsetDateAtPrecision_unfold_2 (d : DateObj) (offset : Int) :
    offsetDateAtPrecision d 2 offset = setUTCDate d (d.day + offset) := rfl

theorem offsetDateAtPrecision_unfold_3 (d : DateObj) (offset : Int) :
    offsetDateAtPrecision d 3 offset = setUTCHours d (d.hour + offset) := rfl

theorem offsetDateAtPrecision_unfold_4 (d : DateObj) (offset : Int) :
    offsetDateAtPrecision d 4 offset = setUTCMinutes d (d.minute + offset) := rfl

theorem offsetDateAtPrecision_unfold_5 (d : DateObj) (offset : Int) :
    offsetDateAtPrecision d 5 offset = setUTCSeconds d (d.second + offset) := rfl

theorem offsetDateAtPrecision_unfold_6 (d : DateObj) (offset : Int) :
    offsetDateAtPrecision d 6 offset = setUTCMilliseconds d (d.millisecond + offset) := rfl

/-- C4 (amended): `offsetDateAtPrecision(d, p, offset)` adds `offset` to
the field addressed by `p` with standard calendar rollover carrying into
coarser fields: at YEAR precision the year becomes `year + offset`, at
MONTH precision the month becomes `(month + offset) mod 12` with the
quotient carried into the year, and for `p ≥ 2` the operation is exactly a
shift of the underlying instant by `offset * unitMillis p`.  Fields
strictly finer than `p` keep their value in `d` whenever the original day
of month stays valid in the target year/month (`offsetFinerSafe`;
automatic for `p ≥ 2`); otherwise the day overflow rolls forward into the
following month: the day field becomes the excess of the day over the
target month length and the month field advances by one more. -/
theorem C4_offsetDateAtPrecision_spec (d : DateObj) (p offset : Int) (hd : WF d)
    (hp0 : 0 ≤ p) (hp6 : p ≤ 6) :
    (p = 0 →
      (offsetFinerSafe d 0 offset = true →
        offsetDateAtPrecision d 0 offset = { d with year := d.year + offset }) ∧
      (offsetFinerSafe d 0 offset = false →
        offsetDateAtPrecision d 0 offset
          = { d with year := d.year + offset, month := d.month + 1,
                     day := d.day - (dimN (isLeap (d.year + offset)) d.month.toNat : Int) })) ∧
    (p = 1 →
      (offsetFinerSafe d 1 offset = true →
        offsetDateAtPrecision d 1 offset
          = { d with year := d.year + (d.month + offset) / 12,
                     month := (d.month + offset) % 12 }) ∧
      (offsetFinerSafe d 1 offset = false →
        offsetDateAtPrecision d 1 offset
          = { d with year := d.year + (d.month + offset) / 12,
                     month := (d.month + offset) % 12 + 1,
                     day := d.day - (dimN (isLeap (d.year + (d.month + offset) / 12))
                         (((d.month + offset) % 12).toNat) : Int) })) ∧
    (offsetFinerSafe d p offset = true →
      ∀ i : Nat, i ≤ 6 → p < (i : Int) →
        fieldAt (offsetDateAtPrecision d p offset) i = fieldAt d i) ∧
    (2 ≤ p →
      dateValueOf (offsetDateAtPrecision d p offset)
        = dateValueOf d + offset * unitMillis p) := by
  obtain ⟨hm0, hm12, hd1, hdd, hh0, hh, hmi0, hmi, hs0, hs, hms0, hms⟩ := hd
  have h31day : d.day ≤ 31 := by
    have := dimN_le_31 (isLeap d.year) d.month.toNat
    omega
  have hp : p = 0 ∨ p = 1 ∨ p = 2 ∨ p = 3 ∨ p = 4 ∨ p = 5 ∨ p = 6 := by omega
  rcases hp with h | h | h | h | h | h | h <;> subst h
  · refine ⟨?_, fun h => absurd h (by decide), ?_, fun h2 => absurd h2 (by decide)⟩
    · intro _
      constructor
      · intro hsafe
        have hA : d.day ≤ (dimN (isLeap (d.year + offset)) d.month.toNat : Int) := by
          rw [show offsetFinerSafe d 0 offset
              = decide (d.day ≤ (dimN (isLeap (d.year + offset)) d.month.toNat : Int))
            from rfl] at hsafe
          exact of_decide_eq_true hsafe
        rw [offsetDateAtPrecision_unfold_0,
          setUTCFullYear_spec d (d.year + offset) hm0 hm12 hd1 hA]
      · intro hunsafe
        have hB : (dimN (isLeap (d.year + offset)) d.month.toNat : Int) < d.day := by
          rw [show offsetFinerSafe d 0 offset
              = decide (d.day ≤ (dimN (isLeap (d.year + offset)) d.month.toNat : Int))
            from rfl] at hunsafe
          have := of_decide_eq_false hunsafe
          omega
        rw [offsetDateAtPrecision_unfold_0,
          setUTCFullYear_roll d (d.year + offset) hm0 hm12 h31day hB]
    · intro hsafe i hi hcmp
      have hA : d.day ≤ (dimN (isLeap (d.year + offset)) d.month.toNat : Int) := by
        rw [show offsetFinerSafe d 0 offset
            = decide (d.day ≤ (dimN (isLeap (d.year + offset)) d.month.toNat : Int))
          from rfl] at hsafe
        exact of_decide_eq_true hsafe
      rw [offsetDateAtPrecision_unfold_0,
        setUTCFullYear_spec d (d.year + offset) hm0 hm12 hd1 hA]
      interval_cases i <;> first | rfl | exact absurd hcmp (by decide)
  · refine ⟨fun h => absurd h (by decide), ?_, ?_, fun h2 => absurd h2 (by decide)⟩
    · intro _
      constructor
      · intro hsafe
        have hA : d.day ≤ (dimN (isLeap (d.year + (d.month + offset) / 12))
            (((d.month + offset) % 12).toNat) : Int) := by
          rw [show offsetFinerSafe d 1 offset
              = decide (d.day ≤ (dimN (isLeap (d.year + (d.month + offset) / 12))
                  (((d.month + offset) % 12).toNat) : Int))
            from rfl] at hsafe
          exact of_decide_eq_true hsafe
        rw [offsetDateAtPrecision_unfold_1,
          setUTCMonth_spec d (d.month + offset) hd1 hA]
      · intro hunsafe
        have hB : (dimN (isLeap (d.year + (d.month + offset) / 12))
            (((d.month + offset) % 12).toNat) : Int) < d.day := by
          rw [show offsetFinerSafe d 1 offset
              = decide (d.day ≤ (dimN (isLeap (d.year + (d.month + offset) / 12))
                  (((d.month + offset) % 12).toNat) : Int))
            from rfl] at hunsafe
          have := of_decide_eq_false hunsafe
          omega
        rw [offsetDateAtPrecision_unfold_1,
          setUTCMonth_roll d (d.month + offset) h31day hB]
    · intro hsafe i hi hcmp
      have hA : d.day ≤ (dimN (isLeap (d.year + (d.month + offset) / 12))
          (((d.month + offset) % 12).toNat) : Int) := by
        rw [show offsetFinerSafe d 1 offset
            = decide (d.day ≤ (dimN (isLeap (d.year + (d.month + offset) / 12))
                (((d.month + offset) % 12).toNat) : Int))
          from rfl] at hsafe
        exact of_decide_eq_true hsafe
      rw [offsetDateAtPrecision_unfold_1,
        setUTCMonth_spec d (d.month + offset) hd1 hA]
      interval_cases i <;> first | rfl | exact absurd hcmp (by decide)
  · refine ⟨fun h => absurd h (by decide), fun h => absurd h (by decide), ?_, ?_⟩
    · intro _ i hi hcmp
      rw [offsetDateAtPrecision_unfold_2]
      interval_cases i <;> first | rfl | exact absurd hcmp (by decide)
    · intro _
      rw [offsetDateAtPrecision_unfold_2]
      have hmk : makeDayJS d.year d.month (d.day + offset)
          = adDay d.year d.month d.day + offset := by
        rw [makeDayJS_eq d.year d.month _ hm0 hm12]
        unfold adDay
        ring
      show dateValueOf (withCivil d (civilFromAdDay
        (makeDayJS d.year d.month (d.day + offset)))) = _
      unfold dateValueOf withCivil
      dsimp only
      rw [(civilFromAdDay_bounds (makeDayJS d.year d.month (d.day + offset))).1, hmk,
        show unitMillis 2 = 86400000 from rfl]
      ring
  · refine ⟨fun h => absurd h (by decide), fun h => absurd h (by decide), ?_, ?_⟩
    · intro _ i hi hcmp
      rw [offsetDateAtPrecision_unfold_3]
      interval_cases i
      · exact absurd hcmp (by decide)
      · exact absurd hcmp (by decide)
      · exact absurd hcmp (by decide)
      · exact absurd hcmp (by decide)
      · show ((((d.hour + offset) * 3600000 + d.minute * 60000 + d.second * 1000
            + d.millisecond) % 86400000) % 3600000) / 60000 = d.minute
        omega
      · show ((((d.hour + offset) * 3600000 + d.minute * 60000 + d.second * 1000
            + d.millisecond) % 86400000) % 60000) / 1000 = d.second
        omega
      · show (((d.hour + offset) * 3600000 + d.minute * 60000 + d.second * 1000
            + d.millisecond) % 86400000) % 1000 = d.millisecond
        omega
    · intro _
      rw [offsetDateAtPrecision_unfold_3]
      show dateValueOf (setTimeOfDayMs d ((d.hour + offset) * 3600000 + d.minute * 60000
        + d.second * 1000 + d.millisecond)) = _
      rw [dateValueOf_setTimeOfDayMs, show unitMillis 3 = 3600000 from rfl]
      unfold dateValueOf
      ring
  · refine ⟨fun h => absurd h (by decide), fun h => absurd h (by decide), ?_, ?_⟩
    · intro _ i hi hcmp
      rw [offsetDateAtPrecision_unfold_4]
      interval_cases i
      · exact absurd hcmp (by decide)
      · exact absurd hcmp (by decide)
      · exact absurd hcmp (by decide)
      · exact absurd hcmp (by decide)
      · exact absurd hcmp (by decide)
      · show (((d.hour * 3600000 + (d.minute + offset) * 60000 + d.second * 1000
            + d.millisecond) % 86400000) % 60000) / 1000 = d.second
        omega
      · show ((d.hour * 3600000 + (d.minute + offset) * 60000 + d.second * 1000
            + d.millisecond) % 86400000) % 1000 = d.millisecond
        omega
    · intro _
      rw [offsetDateAtPrecision_unfold_4]
      show dateValueOf (setTimeOfDayMs d (d.hour * 3600000 + (d.minute + offset) * 60000
        + d.second * 1000 + d.millisecond)) = _
      rw [dateValueOf_setTimeOfDayMs, show unitMillis 4 = 60000 from rfl]
      unfold dateValueOf
      ring
  · refine ⟨fun h => absurd h (by decide), fun h => absurd h (by decide), ?_, ?_⟩
    · intro _ i hi hcmp
      rw [offsetDateAtPrecision_unfold_5]
      interval_cases i
      · exact absurd hcmp (by decide)
      · exact absurd hcmp (by decide)
      · exact absurd hcmp (by decide)
      · exact absurd hcmp (by decide)
      · exact absurd hcmp (by decide)
      · exact absurd hcmp (by decide)
      · show ((d.hour * 3600000 + d.minute * 60000 + (d.second + offset) * 1000
            + d.millisecond) % 86400000) % 1000 = d.millisecond
        omega
    · intro _
      rw [offsetDateAtPrecision_unfold_5]
      show dateValueOf (setTimeOfDayMs d (d.hour * 3600000 + d.minute * 60000
        + (d.second + offset) * 1000 + d.millisecond)) = _
      rw [dateValueOf_setTimeOfDayMs, show unitMillis 5 = 1000 from rfl]
      unfold dateValueOf
      ring
  · refine ⟨fun h => absurd h (by decide), fun h => absurd h (by decide), ?_, ?_⟩
    · intro _ i hi hcmp
      interval_cases i <;> exact absurd hcmp (by decide)
    · intro _
      rw [offsetDateAtPrecision_unfold_6]
      show dateValueOf (setTimeOfDayMs d (d.hour * 3600000 + d.minute * 60000
        + d.second * 1000 + (d.millisecond + offset))) = _
      rw [dateValueOf_setTimeOfDayMs, show unitMillis 6 = 1 from rfl]
      unfold dateValueOf
      ring

/-- C4 counterexample: offsetting 2020-01-31 by one month yields
2020-03-02 — the day of month, a field strictly finer than MONTH
precision, changes from 31 to 2, because the day overflow of the 29-day
target month rolls forward.  This refutes the unconditional claim that
fields finer than `precision` keep their value. -/
theorem C4_counterexample :
    WF ⟨2020, 0, 31, 0, 0, 0, 0⟩ ∧
    offsetDateAtPrecision ⟨2020, 0, 31, 0, 0, 0, 0⟩ 1 1 = ⟨2020, 2, 2, 0, 0, 0, 0⟩ ∧
    (offsetDateAtPrecision ⟨2020, 0, 31, 0, 0, 0, 0⟩ 1 1).day
      ≠ (⟨2020, 0, 31, 0, 0, 0, 0⟩ : DateObj).day := by
  refine ⟨by decide, by decide, by decide⟩

/-- C4 witness: the amended theorem applied at concrete inputs — a
month-offset that keeps the day valid advances the month field and
preserves every other field, and an hour-offset shifts the instant by
whole hours. -/
theorem C4_witness :
    offsetDateAtPrecision ⟨2021, 0, 15, 3, 4, 5, 6⟩ 1 1 = ⟨2021, 1, 15, 3, 4, 5, 6⟩ ∧
    dateValueOf (offsetDateAtPrecision ⟨2021, 3, 15, 3, 4, 5, 6⟩ 3 5)
        = dateValueOf ⟨2021, 3, 15, 3, 4, 5, 6⟩ + 5 * unitMillis 3 := by
  constructor
  · have h := ((C4_offsetDateAtPrecision_spec ⟨2021, 0, 15, 3, 4, 5, 6⟩ 1 1 (by decide)
      (by decide) (by decide)).2.1 rfl).1 (by decide)
    rw [h]
    decide
  · exact (C4_offsetDateAtPrecision_spec ⟨2021, 3, 15, 3, 4, 5, 6⟩ 3 5 (by decide) (by decide)
      (by decide)).2.2.2 (by decide)

/-! ## Decimal string lemmas -/

theorem digitChar_toNat : ∀ n < 10, (Nat.digitChar n).toNat = 48 + n := by decide

theorem digitChar_isDigit : ∀ n < 10, isDigitJS (Nat.digitChar n) = true := by decide

theorem parseDigits_append_one (xs : List Char) (c : Char) :
    parseDigits (xs ++ [c]) = 10 * parseDigits xs + (c.toNat - 48) := by
  unfold parseDigits
  rw [List.foldl_append]
  rfl

theorem natToDigitsAux_spec :
    ∀ fuel n, n < fuel →
      parseDigits (natToDigitsAux fuel n) = n ∧
      (∀ c ∈ natToDigitsAux fuel n, isDigitJS c = true) ∧
      natToDigitsAux fuel n ≠ [] := by
  intro fuel
  induction fuel with
  | zero => omega
  | succ m ih =>
    intro n hn
    by_cases h10 : n < 10
    · simp only [natToDigitsAux, if_pos h10]
      refine ⟨?_, ?_, by simp⟩
      · unfold parseDigits
        simp only [List.foldl]
        rw [digitChar_toNat n h10]
        omega
      · intro c hc
        simp only [List.mem_singleton] at hc
        subst hc
        exact digitChar_isDigit n h10
    · simp only [natToDigitsAux, if_neg h10]
      have hdiv : n / 10 < m := by omega
      obtain ⟨ih1, ih2, ih3⟩ := ih (n / 10) hdiv
      refine ⟨?_, ?_, by simp⟩
      · rw [parseDigits_append_one, ih1, digitChar_toNat (n % 10) (by omega)]
        omega
      · intro c hc
        rw [List.mem_append] at hc
        rcases hc with hc | hc
        · exact ih2 c hc
        · simp only [List.mem_singleton] at hc
          subst hc
          exact digitChar_isDigit (n % 10) (by omega)

theorem natToDigits_spec (n : Nat) :
    parseDigits (natToDigits n) = n ∧
    (∀ c ∈ natToDigits n, isDigitJS c = true) ∧
    natToDigits n ≠ [] :=
  natToDigitsAux_spec (n + 1) n (Nat.lt_succ_self n)

theorem foldl_replicate_zero :
    ∀ k, List.foldl (fun a c => 10 * a + (c.toNat - 48)) 0 (List.replicate k '0') = 0 := by
  intro k
  induction k with
  | zero => rfl
  | succ m ih =>
    rw [List.replicate_succ]
    simpa using ih

theorem parseDigits_replicate_append (k : Nat) (ds : List Char) :
    parseDigits (List.replicate k '0' ++ ds) = parseDigits ds := by
  unfold parseDigits
  rw [List.foldl_append, foldl_replicate_zero]

theorem padStart_spec (s : List Char) (k : Nat) (hne : s ≠ [])
    (hdig : ∀ c ∈ s, isDigitJS c = true) :
    parseDigits (padStart s k '0') = parseDigits s ∧
    (∀ c ∈ padStart s k '0', isDigitJS c = true) ∧
    padStart s k '0' ≠ [] ∧
    (padStart s k '0').length = max k s.length := by
  unfold padStart
  refine ⟨parseDigits_replicate_append _ s, ?_, ?_, ?_⟩
  · intro c hc
    rw [List.mem_append] at hc
    rcases hc with hc | hc
    · have := List.eq_of_mem_replicate hc
      subst this
      decide
    · exact hdig c hc
  · intro habs
    rw [List.append_eq_nil] at habs
    exact hne habs.2
  · rw [List.length_append, List.length_replicate]
    omega

theorem isDigitJS_facts (c : Char) (h : isDigitJS c = true) :
    c ≠ '-' ∧ c ≠ '+' ∧ isWhitespaceJS c = false := by
  simp only [isDigitJS, Bool.and_eq_true, decide_eq_true_eq] at h
  refine ⟨?_, ?_, ?_⟩
  · intro heq
    subst heq
    exact absurd h (by decide)
  · intro heq
    subst heq
    exact absurd h (by decide)
  · simp only [isWhitespaceJS]
    simp only [Bool.or_eq_false_iff, decide_eq_false_iff_not]
    omega

theorem takeWhile_of_all {p : Char → Bool} :
    ∀ s : List Char, (∀ c ∈ s, p c = true) → s.takeWhile p = s := by
  intro s
  induction s with
  | nil => intro _; rfl
  | cons c cs ih =>
    intro h
    rw [List.takeWhile_cons_of_pos (h c (by simp))]
    rw [ih (fun x hx => h x (by simp [hx]))]

theorem parseIntJS_digits (s : List Char) (hne : s ≠ [])
    (hdig : ∀ c ∈ s, isDigitJS c = true) :
    parseIntJS s = JSNumber.finite (parseDigits s) := by
  match s with
  | [] => exact absurd rfl hne
  | c :: cs =>
    have hc := hdig c (by simp)
    obtain ⟨hm, hp, hw⟩ := isDigitJS_facts c hc
    show parseIntJS (c :: cs) = _
    unfold parseIntJS
    rw [List.dropWhile_cons_of_neg (by rw [hw]; exact Bool.false_ne_true)]
    dsimp only
    rw [if_neg hm, if_neg hp, takeWhile_of_all (c :: cs) hdig]

/-! ## Split and join lemmas -/

theorem splitOnChar_ne_nil (delim : Char) : ∀ s, splitOnChar delim s ≠ [] := by
  intro s
  induction s with
  | nil => simp [splitOnChar]
  | cons c cs ih =>
    unfold splitOnChar
    match h : splitOnChar delim cs with
    | [] => exact absurd h ih
    | x :: xs =>
      by_cases hc : c = delim <;> simp [hc]

theorem splitOnChar_no_delim (delim : Char) :
    ∀ s : List Char, (∀ c ∈ s, c ≠ delim) → splitOnChar delim s = [s] := by
  intro s
  induction s with
  | nil => intro _; rfl
  | cons c cs ih =>
    intro h
    show splitOnChar delim (c :: cs) = [c :: cs]
    unfold splitOnChar
    rw [ih (fun x hx => h x (by simp [hx]))]
    dsimp only
    rw [if_neg (h c (by simp))]

theorem splitOnChar_append (delim : Char) :
    ∀ A B : List Char, (∀ c ∈ A, c ≠ delim) →
      splitOnChar delim (A ++ delim :: B) = A :: splitOnChar delim B := by
  intro A
  induction A with
  | nil =>
    intro B _
    show splitOnChar delim (delim :: B) = [] :: splitOnChar delim B
    rcases hsp : splitOnChar delim B with _ | ⟨x, xs⟩
    · exact absurd hsp (splitOnChar_ne_nil delim B)
    · unfold splitOnChar
      rw [hsp]
      dsimp only
      rw [if_pos rfl]
  | cons a as ih =>
    intro B h
    show splitOnChar delim (a :: (as ++ delim :: B)) = (a :: as) :: splitOnChar delim B
    conv_lhs => rw [splitOnChar]
    rw [ih B (fun x hx => h x (by simp [hx]))]
    dsimp only
    rw [if_neg (h a (by simp))]

theorem head?_append_of_ne_nil {α : Type} (A B : List α) (h : A ≠ []) :
    (A ++ B).head? = A.head? := by
  match A with
  | [] => exact absurd rfl h
  | a :: as => rfl

theorem intToString_nonneg (n : Int) (h : 0 ≤ n) : intToString n = natToDigits n.toNat := by
  unfold intToString
  rw [if_neg (by omega)]

theorem beq_head_digit (s : List Char) (hne : s ≠ [])
    (hdig : ∀ c ∈ s, isDigitJS c = true) : (s.head? == some '-') = false := by
  match s with
  | [] => exact absurd rfl hne
  | c :: cs =>
    show (some c == some '-') = false
    have hc := (isDigitJS_facts c (hdig c (by simp))).1
    simp [hc]


/-! ## Parse error condition -/

theorem parseIntJS_cases (s : List Char) :
    (∃ v, parseIntJS s = JSNumber.finite v) ∨ parseIntJS s = JSNumber.nan := by
  unfold parseIntJS
  generalize s.dropWhile isWhitespaceJS = s1
  match s1 with
  | [] => right; rfl
  | c :: rest =>
    dsimp only
    by_cases hm : c = '-'
    · rw [if_pos hm]
      generalize rest.takeWhile isDigitJS = ds
      match ds with
      | [] => right; rfl
      | d :: ds' => left; exact ⟨_, rfl⟩
    · rw [if_neg hm]
      by_cases hp : c = '+'
      · rw [if_pos hp]
        generalize rest.takeWhile isDigitJS = ds
        match ds with
        | [] => right; rfl
        | d :: ds' => left; exact ⟨_, rfl⟩
      · rw [if_neg hp]
        generalize (c :: rest).takeWhile isDigitJS = ds
        match ds with
        | [] => right; rfl
        | d :: ds' => left; exact ⟨_, rfl⟩

/-- C5: `parseDateStringWithPrecision` raises its MalformedDateString
error exactly when `parseInt` cannot read a number from the year segment
(the segment is empty or not numeric); every other input yields a date,
and the failure is the call's only exit (no partial result). -/
theorem C5_parse_fails_iff_year_unparseable (now : DateObj) (s : List Char) (p : Int) :
    exceptIsOk (parseDateStringWithPrecision now s p '-')
      = !(parseIntJS (yearSegmentOf s '-') == JSNumber.nan) := by
  rcases hsp : splitOnChar '-' (if s.head? == some '-' then s.tail else s) with _ | ⟨x, xs⟩
  · exact absurd hsp (splitOnChar_ne_nil _ _)
  · have hseg : yearSegmentOf s '-' = x := by
      unfold yearSegmentOf
      rw [hsp]
      rfl
    rw [hseg]
    simp only [parseDateStringWithPrecision]
    rw [hsp]
    simp only [List.map_cons]
    rcases parseIntJS_cases x with ⟨v, hv⟩ | hv <;> rw [hv] <;>
      simp [exceptIsOk, getNumber, jsIsNaNNum]

/-! ## Format segments parse back to their values -/

theorem segment_facts (n : Int) (hn : 0 ≤ n) (k : Nat) :
    (∀ c ∈ padStart (intToString n) k '0', isDigitJS c = true) ∧
    padStart (intToString n) k '0' ≠ [] ∧
    parseIntJS (padStart (intToString n) k '0') = JSNumber.finite n := by
  have h1 := natToDigits_spec n.toNat
  have h2 := padStart_spec (natToDigits n.toNat) k h1.2.2 h1.2.1
  rw [intToString_nonneg n hn]
  refine ⟨h2.2.1, h2.2.2.1, ?_⟩
  rw [parseIntJS_digits _ h2.2.2.1 h2.2.1, h2.1, h1.1]
  congr 1
  omega

theorem segment_no_delim (n : Int) (hn : 0 ≤ n) (k : Nat) :
    ∀ c ∈ padStart (intToString n) k '0', c ≠ '-' :=
  fun c hc => (isDigitJS_facts c ((segment_facts n hn k).1 c hc)).1

theorem parse_format_2_nonneg (now d : DateObj) (hnow : WF now) (hd : WF d)
    (hy : 0 ≤ d.year) :
    parseDateStringWithPrecision now (getDateStringAtPrecision d 2 '-') 2 '-'
      = Except.ok (getDateAtPrecision d 2) := by
  obtain ⟨hm0, hm12, hd1, hdd, _, _, _, _, _, _, _, _⟩ := id hd
  have hY := segment_facts d.year hy 4
  have hM := segment_facts (d.month + 1) (by omega) 2
  have hD := segment_facts d.day (by omega) 2
  have hfmt : getDateStringAtPrecision d 2 '-'
      = padStart (intToString d.year) 4 '0'
        ++ '-' :: (padStart (intToString (d.month + 1)) 2 '0'
        ++ '-' :: padStart (intToString d.day) 2 '0') := by
    simp only [getDateStringAtPrecision, getUTCFullYear, getUTCMonth, getUTCDate]
    rw [if_neg (by omega : ¬ d.year < 0)]
    rfl
  rw [hfmt]
  have hhead : ((padStart (intToString d.year) 4 '0'
      ++ '-' :: (padStart (intToString (d.month + 1)) 2 '0'
      ++ '-' :: padStart (intToString d.day) 2 '0')).head? == some '-') = false := by
    rw [head?_append_of_ne_nil _ _ hY.2.1]
    exact beq_head_digit _ hY.2.1 hY.1
  simp only [parseDateStringWithPrecision]
  rw [hhead]
  simp only [Bool.false_eq_true, if_false]
  rw [splitOnChar_append '-' _ _ (segment_no_delim d.year hy 4),
    splitOnChar_append '-' _ _ (segment_no_delim (d.month + 1) (by omega) 2),
    splitOnChar_no_delim '-' _ (segment_no_delim d.day (by omega) 2)]
  simp only [List.map_cons, List.map_nil]
  rw [hY.2.2, hM.2.2, hD.2.2]
  show Except.ok (getDateAtPrecision (setUTCDate (setUTCMonth (setUTCFullYear
      (getDateAtPrecision now (-1)) d.year) (d.month + 1 - 1)) d.day) 2)
    = Except.ok (getDateAtPrecision d 2)
  rw [getDateAtPrecision_m1 now hnow]
  have hstep1 : setUTCFullYear ⟨0, 0, 1, 0, 0, 0, 0⟩ d.year = ⟨d.year, 0, 1, 0, 0, 0, 0⟩ := by
    rw [setUTCFullYear_spec ⟨0, 0, 1, 0, 0, 0, 0⟩ d.year (by decide) (by decide) (by decide)
      (by exact (by decide : (1 : Int) ≤ ((31 : Nat) : Int)))]
  rw [hstep1]
  have hstep2 : setUTCMonth ⟨d.year, 0, 1, 0, 0, 0, 0⟩ (d.month + 1 - 1)
      = ⟨d.year, d.month, 1, 0, 0, 0, 0⟩ := by
    rw [show d.month + 1 - 1 = d.month from by ring]
    rw [setUTCMonth_spec ⟨d.year, 0, 1, 0, 0, 0, 0⟩ d.month
      (by exact (by decide : (1 : Int) ≤ 1))
      (by
        show (1 : Int) ≤ (dimN (isLeap (d.year + d.month / 12)) ((d.month % 12).toNat) : Int)
        have h28 := dimN_ge_28 (isLeap (d.year + d.month / 12)) ((d.month % 12).toNat)
        omega)]
    rw [show d.year + d.month / 12 = d.year from by omega,
      show d.month % 12 = d.month from by omega]
  rw [hstep2]
  have hstep3 : setUTCDate ⟨d.year, d.month, 1, 0, 0, 0, 0⟩ d.day
      = ⟨d.year, d.month, d.day, 0, 0, 0, 0⟩ := by
    rw [setUTCDate_spec ⟨d.year, d.month, 1, 0, 0, 0, 0⟩ d.day hm0 hm12 hd1 hdd]
  rw [hstep3]
  rw [getDateAtPrecision_2 ⟨d.year, d.month, d.day, 0, 0, 0, 0⟩ (WF_trunc2 d hd),
    getDateAtPrecision_2 d hd]

theorem parse_format_2_neg (now d : DateObj) (hnow : WF now) (hd : WF d)
    (hy : d.year < 0) :
    parseDateStringWithPrecision now (getDateStringAtPrecision d 2 '-') 2 '-'
      = Except.ok (getDateAtPrecision d 2) := by
  obtain ⟨hm0, hm12, hd1, hdd, _, _, _, _, _, _, _, _⟩ := id hd
  have hY := segment_facts (-d.year) (by omega) 6
  have hM := segment_facts (d.month + 1) (by omega) 2
  have hD := segment_facts d.day (by omega) 2
  have hfmt : getDateStringAtPrecision d 2 '-'
      = '-' :: (padStart (intToString (-d.year)) 6 '0'
        ++ '-' :: (padStart (intToString (d.month + 1)) 2 '0'
        ++ '-' :: padStart (intToString d.day) 2 '0')) := by
    simp only [getDateStringAtPrecision, getUTCFullYear, getUTCMonth, getUTCDate]
    rw [if_pos hy]
    rfl
  rw [hfmt]
  simp only [parseDateStringWithPrecision]
  rw [show (if ((('-' :: (padStart (intToString (-d.year)) 6 '0'
      ++ '-' :: (padStart (intToString (d.month + 1)) 2 '0'
      ++ '-' :: padStart (intToString d.day) 2 '0'))).head? == some '-') = true)
    then ('-' :: (padStart (intToString (-d.year)) 6 '0'
      ++ '-' :: (padStart (intToString (d.month + 1)) 2 '0'
      ++ '-' :: padStart (intToString d.day) 2 '0'))).tail
    else ('-' :: (padStart (intToString (-d.year)) 6 '0'
      ++ '-' :: (padStart (intToString (d.month + 1)) 2 '0'
      ++ '-' :: padStart (intToString d.day) 2 '0'))))
    = padStart (intToString (-d.year)) 6 '0'
      ++ '-' :: (padStart (intToString (d.month + 1)) 2 '0'
      ++ '-' :: padStart (intToString d.day) 2 '0') from rfl]
  rw [splitOnChar_append '-' _ _ (segment_no_delim (-d.year) (by omega) 6),
    splitOnChar_append '-' _ _ (segment_no_delim (d.month + 1) (by omega) 2),
    splitOnChar_no_delim '-' _ (segment_no_delim d.day (by omega) 2)]
  simp only [List.map_cons, List.map_nil]
  rw [hY.2.2, hM.2.2, hD.2.2]
  show Except.ok (getDateAtPrecision (setUTCDate (setUTCMonth (setUTCFullYear
      (getDateAtPrecision now (-1)) (-(-d.year))) (d.month + 1 - 1)) d.day) 2)
    = Except.ok (getDateAtPrecision d 2)
  rw [show -(-d.year) = d.year from by ring]
  rw [getDateAtPrecision_m1 now hnow]
  have hstep1 : setUTCFullYear ⟨0, 0, 1, 0, 0, 0, 0⟩ d.year = ⟨d.year, 0, 1, 0, 0, 0, 0⟩ := by
    rw [setUTCFullYear_spec ⟨0, 0, 1, 0, 0, 0, 0⟩ d.year (by decide) (by decide) (by decide)
      (by exact (by decide : (1 : Int) ≤ ((31 : Nat) : Int)))]
  rw [hstep1]
  have hstep2 : setUTCMonth ⟨d.year, 0, 1, 0, 0, 0, 0⟩ (d.month + 1 - 1)
      = ⟨d.year, d.month, 1, 0, 0, 0, 0⟩ := by
    rw [show d.month + 1 - 1 = d.month from by ring]
    rw [setUTCMonth_spec ⟨d.year, 0, 1, 0, 0, 0, 0⟩ d.month
      (by exact (by decide : (1 : Int) ≤ 1))
      (by
        show (1 : Int) ≤ (dimN (isLeap (d.year + d.month / 12)) ((d.month % 12).toNat) : Int)
        have h28 := dimN_ge_28 (isLeap (d.year + d.month / 12)) ((d.month % 12).toNat)
        omega)]
    rw [show d.year + d.month / 12 = d.year from by omega,
      show d.month % 12 = d.month from by omega]
  rw [hstep2]
  have hstep3 : setUTCDate ⟨d.year, d.month, 1, 0, 0, 0, 0⟩ d.day
      = ⟨d.year, d.month, d.day, 0, 0, 0, 0⟩ := by
    rw [setUTCDate_spec ⟨d.year, d.month, 1, 0, 0, 0, 0⟩ d.day hm0 hm12 hd1 hdd]
  rw [hstep3]
  rw [getDateAtPrecision_2 ⟨d.year, d.month, d.day, 0, 0, 0, 0⟩ (WF_trunc2 d hd),
    getDateAtPrecision_2 d hd]

theorem parse_format_1_nonneg (now d : DateObj) (hnow : WF now) (hd : WF d)
    (hy : 0 ≤ d.year) :
    parseDateStringWithPrecision now (getDateStringAtPrecision d 1 '-') 1 '-'
      = Except.ok (getDateAtPrecision d 1) := by
  obtain ⟨hm0, hm12, hd1, hdd, _, _, _, _, _, _, _, _⟩ := id hd
  have hY := segment_facts d.year hy 4
  have hM := segment_facts (d.month + 1) (by omega) 2
  have hfmt : getDateStringAtPrecision d 1 '-'
      = padStart (intToString d.year) 4 '0'
        ++ '-' :: padStart (intToString (d.month + 1)) 2 '0' := by
    simp only [getDateStringAtPrecision, getUTCFullYear, getUTCMonth, getUTCDate]
    rw [if_neg (by omega : ¬ d.year < 0)]
    rfl
  rw [hfmt]
  have hhead : ((padStart (intToString d.year) 4 '0'
      ++ '-' :: padStart (intToString (d.month + 1)) 2 '0').head? == some '-') = false := by
    rw [head?_append_of_ne_nil _ _ hY.2.1]
    exact beq_head_digit _ hY.2.1 hY.1
  simp only [parseDateStringWithPrecision]
  rw [hhead]
  simp only [Bool.false_eq_true, if_false]
  rw [splitOnChar_append '-' _ _ (segment_no_delim d.year hy 4),
    splitOnChar_no_delim '-' _ (segment_no_delim (d.month + 1) (by omega) 2)]
  simp only [List.map_cons, List.map_nil]
  rw [hY.2.2, hM.2.2]
  show Except.ok (getDateAtPrecision (setUTCDate (setUTCMonth (setUTCFullYear
      (getDateAtPrecision now (-1)) d.year) (d.month + 1 - 1)) 1) 1)
    = Except.ok (getDateAtPrecision d 1)
  rw [getDateAtPrecision_m1 now hnow]
  have hstep1 : setUTCFullYear ⟨0, 0, 1, 0, 0, 0, 0⟩ d.year = ⟨d.year, 0, 1, 0, 0, 0, 0⟩ := by
    rw [setUTCFullYear_spec ⟨0, 0, 1, 0, 0, 0, 0⟩ d.year (by decide) (by decide) (by decide)
      (by exact (by decide : (1 : Int) ≤ ((31 : Nat) : Int)))]
  rw [hstep1]
  have hstep2 : setUTCMonth ⟨d.year, 0, 1, 0, 0, 0, 0⟩ (d.month + 1 - 1)
      = ⟨d.year, d.month, 1, 0, 0, 0, 0⟩ := by
    rw [show d.month + 1 - 1 = d.month from by ring]
    rw [setUTCMonth_spec ⟨d.year, 0, 1, 0, 0, 0, 0⟩ d.month
      (by exact (by decide : (1 : Int) ≤ 1))
      (by
        show (1 : Int) ≤ (dimN (isLeap (d.year + d.month / 12)) ((d.month % 12).toNat) : Int)
        have h28 := dimN_ge_28 (isLeap (d.year + d.month / 12)) ((d.month % 12).toNat)
        omega)]
    rw [show d.year + d.month / 12 = d.year from by omega,
      show d.month % 12 = d.month from by omega]
  rw [hstep2]
  have hstep3 : setUTCDate ⟨d.year, d.month, 1, 0, 0, 0, 0⟩ 1
      = ⟨d.year, d.month, 1, 0, 0, 0, 0⟩ := by
    rw [setUTCDate_spec ⟨d.year, d.month, 1, 0, 0, 0, 0⟩ 1 hm0 hm12
      (by exact (by decide : (1 : Int) ≤ 1))
      (by
        show (1 : Int) ≤ (dimN (isLeap d.year) (d.month.toNat) : Int)
        have h28 := dimN_ge_28 (isLeap d.year) d.month.toNat
        omega)]
  rw [hstep3]
  rw [getDateAtPrecision_1 ⟨d.year, d.month, 1, 0, 0, 0, 0⟩ (WF_trunc1 d hd),
    getDateAtPrecision_1 d hd]

theorem parse_format_1_neg (now d : DateObj) (hnow : WF now) (hd : WF d)
    (hy : d.year < 0) :
    parseDateStringWithPrecision now (getDateStringAtPrecision d 1 '-') 1 '-'
      = Except.ok (getDateAtPrecision d 1) := by
  obtain ⟨hm0, hm12, hd1, hdd, _, _, _, _, _, _, _, _⟩ := id hd
  have hY := segment_facts (-d.year) (by omega) 6
  have hM := segment_facts (d.month + 1) (by omega) 2
  have hfmt : getDateStringAtPrecision d 1 '-'
      = '-' :: (padStart (intToString (-d.year)) 6 '0'
        ++ '-' :: padStart (intToString (d.month + 1)) 2 '0') := by
    simp only [getDateStringAtPrecision, getUTCFullYear, getUTCMonth, getUTCDate]
    rw [if_pos hy]
    rfl
  rw [hfmt]
  simp only [parseDateStringWithPrecision]
  rw [show (if ((('-' :: (padStart (intToString (-d.year)) 6 '0'
      ++ '-' :: padStart (intToString (d.month + 1)) 2 '0')).head? == some '-') = true)
    then ('-' :: (padStart (intToString (-d.year)) 6 '0'
      ++ '-' :: padStart (intToString (d.month + 1)) 2 '0')).tail
    else ('-' :: (padStart (intToString (-d.year)) 6 '0'
      ++ '-' :: padStart (intToString (d.month + 1)) 2 '0')))
    = padStart (intToString (-d.year)) 6 '0'
      ++ '-' :: padStart (intToString (d.month + 1)) 2 '0' from rfl]
  rw [splitOnChar_append '-' _ _ (segment_no_delim (-d.year) (by omega) 6),
    splitOnChar_no_delim '-' _ (segment_no_delim (d.month + 1) (by omega) 2)]
  simp only [List.map_cons, List.map_nil]
  rw [hY.2.2, hM.2.2]
  show Except.ok (getDateAtPrecision (setUTCDate (setUTCMonth (setUTCFullYear
      (getDateAtPrecision now (-1)) (-(-d.year))) (d.month + 1 - 1)) 1) 1)
    = Except.ok (getDateAtPrecision d 1)
  rw [show -(-d.year) = d.year from by ring]
  rw [getDateAtPrecision_m1 now hnow]
  have hstep1 : setUTCFullYear ⟨0, 0, 1, 0, 0, 0, 0⟩ d.year = ⟨d.year, 0, 1, 0, 0, 0, 0⟩ := by
    rw [setUTCFullYear_spec ⟨0, 0, 1, 0, 0, 0, 0⟩ d.year (by decide) (by decide) (by decide)
      (by exact (by decide : (1 : Int) ≤ ((31 : Nat) : Int)))]
  rw [hstep1]
  have hstep2 : setUTCMonth ⟨d.year, 0, 1, 0, 0, 0, 0⟩ (d.month + 1 - 1)
      = ⟨d.year, d.month, 1, 0, 0, 0, 0⟩ := by
    rw [show d.month + 1 - 1 = d.month from by ring]
    rw [setUTCMonth_spec ⟨d.year, 0, 1, 0, 0, 0, 0⟩ d.month
      (by exact (by decide : (1 : Int) ≤ 1))
      (by
        show (1 : Int) ≤ (dimN (isLeap (d.year + d.month / 12)) ((d.month % 12).toNat) : Int)
        have h28 := dimN_ge_28 (isLeap (d.year + d.month / 12)) ((d.month % 12).toNat)
        omega)]
    rw [show d.year + d.month / 12 = d.year from by omega,
      show d.month % 12 = d.month from by omega]
  rw [hstep2]
  have hstep3 : setUTCDate ⟨d.year, d.month, 1, 0, 0, 0, 0⟩ 1
      = ⟨d.year, d.month, 1, 0, 0, 0, 0⟩ := by
    rw [setUTCDate_spec ⟨d.year, d.month, 1, 0, 0, 0, 0⟩ 1 hm0 hm12
      (by exact (by decide : (1 : Int) ≤ 1))
      (by
        show (1 : Int) ≤ (dimN (isLeap d.year) (d.month.toNat) : Int)
        have h28 := dimN_ge_28 (isLeap d.year) d.month.toNat
        omega)]
  rw [hstep3]
  rw [getDateAtPrecision_1 ⟨d.year, d.month, 1, 0, 0, 0, 0⟩ (WF_trunc1 d hd),
    getDateAtPrecision_1 d hd]

theorem parse_format_0_nonneg (now d : DateObj) (hnow : WF now) (hd : WF d)
    (hy : 0 ≤ d.year) :
    parseDateStringWithPrecision now (getDateStringAtPrecision d 0 '-') 0 '-'
      = Except.ok (getDateAtPrecision d 0) := by
  obtain ⟨hm0, hm12, hd1, hdd, _, _, _, _, _, _, _, _⟩ := id hd
  have hY := segment_facts d.year hy 4
  have hfmt : getDateStringAtPrecision d 0 '-' = padStart (intToString d.year) 4 '0' := by
    simp only [getDateStringAtPrecision, getUTCFullYear, getUTCMonth, getUTCDate]
    rw [if_neg (by omega : ¬ d.year < 0)]
    rfl
  rw [hfmt]
  have hhead : ((padStart (intToString d.year) 4 '0').head? == some '-') = false :=
    beq_head_digit _ hY.2.1 hY.1
  simp only [parseDateStringWithPrecision]
  rw [hhead]
  simp only [Bool.false_eq_true, if_false]
  rw [splitOnChar_no_delim '-' _ (segment_no_delim d.year hy 4)]
  simp only [List.map_cons, List.map_nil]
  rw [hY.2.2]
  show Except.ok (getDateAtPrecision (setUTCDate (setUTCMonth (setUTCFullYear
      (getDateAtPrecision now (-1)) d.year) 0) 1) 0)
    = Except.ok (getDateAtPrecision d 0)
  rw [getDateAtPrecision_m1 now hnow]
  have hstep1 : setUTCFullYear ⟨0, 0, 1, 0, 0, 0, 0⟩ d.year = ⟨d.year, 0, 1, 0, 0, 0, 0⟩ := by
    rw [setUTCFullYear_spec ⟨0, 0, 1, 0, 0, 0, 0⟩ d.year (by decide) (by decide) (by decide)
      (by exact (by decide : (1 : Int) ≤ ((31 : Nat) : Int)))]
  rw [hstep1]
  have hstep2 : setUTCMonth ⟨d.year, 0, 1, 0, 0, 0, 0⟩ 0 = ⟨d.year, 0, 1, 0, 0, 0, 0⟩ := by
    rw [setUTCMonth_spec ⟨d.year, 0, 1, 0, 0, 0, 0⟩ 0
      (by exact (by decide : (1 : Int) ≤ 1))
      (by exact (by decide : (1 : Int) ≤ ((31 : Nat) : Int)))]
    rw [show d.year + 0 / 12 = d.year from by omega]
    rfl
  rw [hstep2]
  have hstep3 : setUTCDate ⟨d.year, 0, 1, 0, 0, 0, 0⟩ 1 = ⟨d.year, 0, 1, 0, 0, 0, 0⟩ := by
    rw [setUTCDate_spec ⟨d.year, 0, 1, 0, 0, 0, 0⟩ 1
      (by exact (by decide : (0 : Int) ≤ 0))
      (by exact (by decide : (0 : Int) < 12))
      (by exact (by decide : (1 : Int) ≤ 1))
      (by exact (by decide : (1 : Int) ≤ ((31 : Nat) : Int)))]
  rw [hstep3]
  rw [getDateAtPrecision_0 ⟨d.year, 0, 1, 0, 0, 0, 0⟩ (WF_trunc0 d),
    getDateAtPrecision_0 d hd]

theorem parse_format_0_neg (now d : DateObj) (hnow : WF now) (hd : WF d)
    (hy : d.year < 0) :
    parseDateStringWithPrecision now (getDateStringAtPrecision d 0 '-') 0 '-'
      = Except.ok (getDateAtPrecision d 0) := by
  obtain ⟨hm0, hm12, hd1, hdd, _, _, _, _, _, _, _, _⟩ := id hd
  have hY := segment_facts (-d.year) (by omega) 6
  have hfmt : getDateStringAtPrecision d 0 '-'
      = '-' :: padStart (intToString (-d.year)) 6 '0' := by
    simp only [getDateStringAtPrecision, getUTCFullYear, getUTCMonth, getUTCDate]
    rw [if_pos hy]
    rfl
  rw [hfmt]
  simp only [parseDateStringWithPrecision]
  rw [show (if ((('-' :: padStart (intToString (-d.year)) 6 '0').head? == some '-') = true)
    then ('-' :: padStart (intToString (-d.year)) 6 '0').tail
    else ('-' :: padStart (intToString (-d.year)) 6 '0'))
    = padStart (intToString (-d.year)) 6 '0' from rfl]
  rw [splitOnChar_no_delim '-' _ (segment_no_delim (-d.year) (by omega) 6)]
  simp only [List.map_cons, List.map_nil]
  rw [hY.2.2]
  show Except.ok (getDateAtPrecision (setUTCDate (setUTCMonth (setUTCFullYear
      (getDateAtPrecision now (-1)) (-(-d.year))) 0) 1) 0)
    = Except.ok (getDateAtPrecision d 0)
  rw [show -(-d.year) = d.year from by ring]
  rw [getDateAtPrecision_m1 now hnow]
  have hstep1 : setUTCFullYear ⟨0, 0, 1, 0, 0, 0, 0⟩ d.year = ⟨d.year, 0, 1, 0, 0, 0, 0⟩ := by
    rw [setUTCFullYear_spec ⟨0, 0, 1, 0, 0, 0, 0⟩ d.year (by decide) (by decide) (by decide)
      (by exact (by decide : (1 : Int) ≤ ((31 : Nat) : Int)))]
  rw [hstep1]
  have hstep2 : setUTCMonth ⟨d.year, 0, 1, 0, 0, 0, 0⟩ 0 = ⟨d.year, 0, 1, 0, 0, 0, 0⟩ := by
    rw [setUTCMonth_spec ⟨d.year, 0, 1, 0, 0, 0, 0⟩ 0
      (by exact (by decide : (1 : Int) ≤ 1))
      (by exact (by decide : (1 : Int) ≤ ((31 : Nat) : Int)))]
    rw [show d.year + 0 / 12 = d.year from by omega]
    rfl
  rw [hstep2]
  have hstep3 : setUTCDate ⟨d.year, 0, 1, 0, 0, 0, 0⟩ 1 = ⟨d.year, 0, 1, 0, 0, 0, 0⟩ := by
    rw [setUTCDate_spec ⟨d.year, 0, 1, 0, 0, 0, 0⟩ 1
      (by exact (by decide : (0 : Int) ≤ 0))
      (by exact (by decide : (0 : Int) < 12))
      (by exact (by decide : (1 : Int) ≤ 1))
      (by exact (by decide : (1 : Int) ≤ ((31 : Nat) : Int)))]
  rw [hstep3]
  rw [getDateAtPrecision_0 ⟨d.year, 0, 1, 0, 0, 0, 0⟩ (WF_trunc0 d),
    getDateAtPrecision_0 d hd]

/-- C1: for every precision `p` in `{YEAR, MONTH, DAY}` and every
normalized date `d`, parsing the formatted string at the same precision
equals truncating the date:
`parseDateStringWithPrecision(getDateStringAtPrecision(d, p), p)
 = getDateAtPrecision(d, p)` (the explicit `now` parameter is the clock
value the parser's cleared scratch date starts from). -/
theorem C1_parse_format_roundtrip (now d : DateObj) (p : Int) (hnow : WF now) (hd : WF d)
    (hp : p = 0 ∨ p = 1 ∨ p = 2) :
    parseDateStringWithPrecision now (getDateStringAtPrecision d p '-') p '-'
      = Except.ok (getDateAtPrecision d p) := by
  rcases hp with h | h | h <;> subst h <;> rcases Int.lt_or_le d.year 0 with hy | hy
  · exact parse_format_0_neg now d hnow hd hy
  · exact parse_format_0_nonneg now d hnow hd hy
  · exact parse_format_1_neg now d hnow hd hy
  · exact parse_format_1_nonneg now d hnow hd hy
  · exact parse_format_2_neg now d hnow hd hy
  · exact parse_format_2_nonneg now d hnow hd hy

/-- C1 witness: the round-trip theorem applied at a concrete date and
precision. -/
theorem C1_witness :
    parseDateStringWithPrecision ⟨1970, 0, 1, 0, 0, 0, 0⟩
      (getDateStringAtPrecision ⟨2026, 5, 17, 7, 8, 9, 10⟩ 2 '-') 2 '-'
      = Except.ok (getDateAtPrecision ⟨2026, 5, 17, 7, 8, 9, 10⟩ 2) :=
  C1_parse_format_roundtrip ⟨1970, 0, 1, 0, 0, 0, 0⟩ ⟨2026, 5, 17, 7, 8, 9, 10⟩ 2
    (by decide) (by decide) (by decide)

/-- C7: `getDateStringAtPrecision` zero-pads non-negative years to at
least 4 digits and renders a negative year as a leading minus sign
followed by the magnitude zero-padded to 6 digits; in particular
formatting the parse of "-0099-03-15" at day precision gives
"-000099-03-15". -/
theorem C7_year_padding (d : DateObj) :
    (Except.map (fun e => getDateStringAtPrecision e 2 '-')
        (parseDateStringWithPrecision ⟨1970, 0, 1, 0, 0, 0, 0⟩ "-0099-03-15".data 2 '-')
      = Except.ok "-000099-03-15".data) ∧
    (0 ≤ d.year →
      4 ≤ (getDateStringAtPrecision d 0 '-').length ∧
      parseDigits (getDateStringAtPrecision d 0 '-') = d.year.toNat ∧
      (∀ c ∈ getDateStringAtPrecision d 0 '-', isDigitJS c = true)) ∧
    (d.year < 0 →
      (getDateStringAtPrecision d 0 '-').head? = some '-' ∧
      6 ≤ (getDateStringAtPrecision d 0 '-').tail.length ∧
      parseDigits (getDateStringAtPrecision d 0 '-').tail = (-d.year).toNat ∧
      (∀ c ∈ (getDateStringAtPrecision d 0 '-').tail, isDigitJS c = true)) := by
  refine ⟨by rfl, ?_, ?_⟩
  · intro hy
    have hfmt : getDateStringAtPrecision d 0 '-' = padStart (intToString d.year) 4 '0' := by
      simp only [getDateStringAtPrecision, getUTCFullYear, getUTCMonth, getUTCDate]
      rw [if_neg (by omega : ¬ d.year < 0)]
      rfl
    rw [hfmt, intToString_nonneg d.year hy]
    have h1 := natToDigits_spec d.year.toNat
    have h2 := padStart_spec (natToDigits d.year.toNat) 4 h1.2.2 h1.2.1
    refine ⟨?_, ?_, h2.2.1⟩
    · rw [h2.2.2.2]
      omega
    · rw [h2.1, h1.1]
  · intro hy
    have hfmt : getDateStringAtPrecision d 0 '-'
        = '-' :: padStart (intToString (-d.year)) 6 '0' := by
      simp only [getDateStringAtPrecision, getUTCFullYear, getUTCMonth, getUTCDate]
      rw [if_pos hy]
      rfl
    rw [hfmt, intToString_nonneg (-d.year) (by omega)]
    have h1 := natToDigits_spec (-d.year).toNat
    have h2 := padStart_spec (natToDigits (-d.year).toNat) 6 h1.2.2 h1.2.1
    refine ⟨rfl, ?_, ?_, ?_⟩
    · show 6 ≤ (padStart (natToDigits (-d.year).toNat) 6 '0').length
      rw [h2.2.2.2]
      omega
    · show parseDigits (padStart (natToDigits (-d.year).toNat) 6 '0') = (-d.year).toNat
      rw [h2.1, h1.1]
    · show ∀ c ∈ padStart (natToDigits (-d.year).toNat) 6 '0', isDigitJS c = true
      exact h2.2.1

/-- C7 witness: the padding theorem applied at concrete positive- and
negative-year dates. -/
theorem C7_witness :
    4 ≤ (getDateStringAtPrecision ⟨476, 0, 1, 0, 0, 0, 0⟩ 0 '-').length ∧
    (getDateStringAtPrecision ⟨-99, 2, 15, 0, 0, 0, 0⟩ 0 '-').head? = some '-' ∧
    6 ≤ (getDateStringAtPrecision ⟨-99, 2, 15, 0, 0, 0, 0⟩ 0 '-').tail.length := by
  refine ⟨(C7_year_padding ⟨476, 0, 1, 0, 0, 0, 0⟩).2.1 (by decide) |>.1, ?_, ?_⟩
  · exact ((C7_year_padding ⟨-99, 2, 15, 0, 0, 0, 0⟩).2.2 (by decide)).1
  · exact ((C7_year_padding ⟨-99, 2, 15, 0, 0, 0, 0⟩).2.2 (by decide)).2.1

/-! ## Placeholder matching lemmas -/

theorem dropWhile_append_all {p : Char → Bool} :
    ∀ (A : List Char) (b : Char) (B : List Char), (∀ c ∈ A, p c = true) → p b = false →
      (A ++ b :: B).dropWhile p = b :: B := by
  intro A
  induction A with
  | nil =>
    intro b B _ hb
    simp [List.dropWhile_cons_of_neg, hb]
  | cons a as ih =>
    intro b B hA hb
    have ha : p a = true := hA a (by simp)
    show ((a :: (as ++ b :: B)).dropWhile p) = b :: B
    rw [List.dropWhile_cons_of_pos ha]
    exact ih b B (fun c hc => hA c (by simp [hc])) hb

theorem takeWhile_append_all {p : Char → Bool} :
    ∀ (A : List Char) (b : Char) (B : List Char), (∀ c ∈ A, p c = true) → p b = false →
      (A ++ b :: B).takeWhile p = A := by
  intro A
  induction A with
  | nil =>
    intro b B _ hb
    simp [List.takeWhile_cons_of_neg, hb]
  | cons a as ih =>
    intro b B hA hb
    have ha : p a = true := hA a (by simp)
    show ((a :: (as ++ b :: B)).takeWhile p) = a :: as
    rw [List.takeWhile_cons_of_pos ha]
    rw [ih b B (fun c hc => hA c (by simp [hc])) hb]

theorem tryPlaceholderBody_spec (name rest : List Char) (hname : validIdent name = true) :
    tryPlaceholderBody (name ++ rbrace :: rest) = some (name, rest) := by
  match name with
  | [] => exact absurd hname (by simp [validIdent])
  | c :: cs =>
    simp only [validIdent, Bool.and_eq_true, List.all_eq_true] at hname
    show tryPlaceholderBody (c :: (cs ++ rbrace :: rest)) = some (c :: cs, rest)
    unfold tryPlaceholderBody
    dsimp only
    rw [if_pos hname.1]
    have hrb : isIdCont rbrace = false := by decide
    rw [dropWhile_append_all cs rbrace rest (fun x hx => hname.2 x hx) hrb]
    dsimp only
    rw [if_pos rfl]
    rw [takeWhile_append_all cs rbrace rest (fun x hx => hname.2 x hx) hrb]

theorem findPlaceholder_here (name rest : List Char) (hname : validIdent name = true) :
    findPlaceholder (lbrace :: (name ++ rbrace :: rest))
      = some (lbrace :: name ++ [rbrace], name, rest) := by
  unfold findPlaceholder
  rw [if_pos rfl, tryPlaceholderBody_spec name rest hname]

theorem matchPlaceholder_exact (name : List Char) (hname : validIdent name = true) :
    matchPlaceholder (lbrace :: name ++ [rbrace])
      = some (lbrace :: name ++ [rbrace], name) := by
  unfold matchPlaceholder
  have h := findPlaceholder_here name [] hname
  rw [show lbrace :: name ++ [rbrace] = lbrace :: (name ++ rbrace :: []) from rfl]
  rw [h]
  rfl

/-- C6 (amended): for a matched placeholder whose filler entry is truthy
and whose resolved value is neither null/undefined nor a string, the
placeholder is replaced by the empty string and the raw value is written
into the store when one is supplied, and is replaced by the value's
generic string conversion when no store is supplied; in particular the
template-filler example with a function filler producing an object
returns the template with the placeholder removed and the object stored
under the placeholder name.  (A falsy filler entry — 0, false, NaN, the
empty string — is treated as missing and triggers neither behavior; see
the counterexample.) -/
theorem C6_fill_nonstring_values (ts name : List Char) (fillers : List Char → JSValue)
    (store : DataStore) (hname : validIdent name = true)
    (htruthy : isTruthy (fillers name) = true)
    (hnotnull : resolveFiller (fillers name) ≠ JSValue.nullv)
    (hnotundef : resolveFiller (fillers name) ≠ JSValue.undef)
    (hnotstr : ∀ sv, resolveFiller (fillers name) ≠ JSValue.str sv) :
    fillTemplateStringSegment ts (lbrace :: name ++ [rbrace]) fillers (some store)
      = (replaceFirst ts (lbrace :: name ++ [rbrace]) [],
         some (storeSet store name (resolveFiller (fillers name)))) ∧
    fillTemplateStringSegment ts (lbrace :: name ++ [rbrace]) fillers none
      = (replaceFirst ts (lbrace :: name ++ [rbrace])
          (jsToString (resolveFiller (fillers name))), none) ∧
    fillTemplateString ("/q/".data ++ lbrace :: "filter".data ++ [rbrace])
      (fun s => if s = "filter".data
        then JSValue.funcv
          (fun _ => JSValue.objv [("a".data, JSValue.num (JSNumber.finite 1))])
        else JSValue.undef)
      (some [])
      = ("/q/".data,
         some [("filter".data, JSValue.objv [("a".data, JSValue.num (JSNumber.finite 1))])]) := by
  refine ⟨?_, ?_, by rfl⟩
  · unfold fillTemplateStringSegment
    rw [matchPlaceholder_exact name hname]
    dsimp only
    rw [htruthy]
    rcases hv : resolveFiller (fillers name) with n | sv | b | _ | _ | fields | f
    · rfl
    · exact absurd hv (hnotstr sv)
    · rfl
    · exact absurd hv hnotnull
    · exact absurd hv hnotundef
    · rfl
    · rfl
  · unfold fillTemplateStringSegment
    rw [matchPlaceholder_exact name hname]
    dsimp only
    rw [htruthy]
    rcases hv : resolveFiller (fillers name) with n | sv | b | _ | _ | fields | f
    · rfl
    · exact absurd hv (hnotstr sv)
    · rfl
    · exact absurd hv hnotnull
    · exact absurd hv hnotundef
    · rfl
    · rfl

/-- C6 counterexample: a literal filler value `0` is falsy, so the source
treats it as a missing filler — the placeholder is replaced by the empty
string and nothing is written to the supplied `dataStore`, although the
resolved value `0` is neither null/undefined nor a string.  The claim
would require `store.x == 0` afterwards. -/
theorem C6_counterexample :
    fillTemplateString ("/q/".data ++ lbrace :: "x".data ++ [rbrace])
      (fun s => if s = "x".data then JSValue.num (JSNumber.finite 0) else JSValue.undef)
      (some [])
      = ("/q/".data, some []) ∧
    resolveFiller (JSValue.num (JSNumber.finite 0)) = JSValue.num (JSNumber.finite 0) ∧
    storeGet [] "x".data = none :=
  ⟨rfl, rfl, rfl⟩

/-- C6 witness: the amended theorem applied at a concrete template,
filler function and store. -/
theorem C6_witness :
    fillTemplateStringSegment "/q/x".data (lbrace :: "filter".data ++ [rbrace])
      (fun s => if s = "filter".data
        then JSValue.funcv
          (fun _ => JSValue.objv [("a".data, JSValue.num (JSNumber.finite 1))])
        else JSValue.undef)
      (some [])
      = (replaceFirst "/q/x".data (lbrace :: "filter".data ++ [rbrace]) [],
         some (storeSet [] "filter".data
           (resolveFiller (JSValue.funcv
             (fun _ => JSValue.objv [("a".data, JSValue.num (JSNumber.finite 1))]))))) := by
  have h := (C6_fill_nonstring_values "/q/x".data "filter".data
    (fun s => if s = "filter".data
      then JSValue.funcv
        (fun _ => JSValue.objv [("a".data, JSValue.num (JSNumber.finite 1))])
      else JSValue.undef)
    [] (by decide) (by rfl)
    (fun h => by simp [resolveFiller] at h) (fun h => by simp [resolveFiller] at h)
    (fun sv h => by simp [resolveFiller] at h)).1
  exact h
